import Mathlib

/-!
Shallow embedding of the Inventory & Procurement Reconciliation Engine of the
civil-erp-back repository: the stock status classifier, the Inventory Ledger
operations (`create_item`, `update_item`, `update_quantity`,
`transfer_material` from `controllers/inventory_controller.py`), the PO/GRN
matcher and ledger sync (`create_grn` from
`controllers/procurement_controller.py`), and the Daily Stock Ledger
(`get_previous_closing_stock`, `create_dpr` from
`controllers/project_controller.py`).

Python floats are modelled as rationals (the code only adds, subtracts,
multiplies, compares and rounds to two decimals); the document store is
modelled as lists of records, `find_one` as the first match in list order and
`update_one` as an update of the first match.  Timestamps, `created_by`,
remarks and the equipment-status side effect (which touches no
quantity/value/status field) are omitted.
-/

namespace CivilERP

/-- Stock status values stored in `InventoryItem.status`. -/
inductive Status where
  | in_stock
  | low_stock
  | out_of_stock
deriving DecidableEq

/-- Embeds `_compute_status` of `controllers/inventory_controller.py`
(also duplicated verbatim as `_inventory_status` in
`controllers/procurement_controller.py` and `_inv_status` in
`controllers/project_controller.py`). -/
def _compute_status (quantity minimum_quantity : ℚ) : Status :=
  if quantity ≤ 0 then .out_of_stock
  else if 0 < minimum_quantity ∧ quantity ≤ minimum_quantity then .low_stock
  else .in_stock

/-- Embeds `_inventory_status` of `controllers/procurement_controller.py`. -/
def _inventory_status (qty min_qty : ℚ) : Status :=
  if qty ≤ 0 then .out_of_stock
  else if 0 < min_qty ∧ qty ≤ min_qty then .low_stock
  else .in_stock

/-- Embeds `_inv_status` of `controllers/project_controller.py`. -/
def _inv_status (qty min_qty : ℚ) : Status :=
  if qty ≤ 0 then .out_of_stock
  else if 0 < min_qty ∧ qty ≤ min_qty then .low_stock
  else .in_stock

/-- One stored inventory document (`models/inventory.py`, `InventoryItem`).
`gst_rate` is optional because the raw-dict insert in `create_grn` omits the
field entirely.  An absent/None `vendor_id`, `hsn_code`, `location` is
`none`; an absent `notes` is the empty string. -/
structure InventoryItem where
  id : String
  project_id : String
  item_name : String
  category : String
  unit : String
  quantity : ℚ
  minimum_quantity : ℚ
  unit_price : ℚ
  gst_rate : Option ℚ
  hsn_code : Option String
  location : Option String
  vendor_id : Option String
  notes : String
  total_value : ℚ
  status : Status
deriving DecidableEq

/-- The inventory collection: `db.inventory` as a list of documents. -/
abbrev Inventory := List InventoryItem

/-- Embeds `db.inventory.find_one({"id": item_id})`: first document in list
order with the given id. -/
def find_one (inv : Inventory) (item_id : String) : Option InventoryItem :=
  inv.find? (fun it => it.id == item_id)

/-- Embeds `db.inventory.update_one({"id": item_id}, {"$set": ...})`:
rewrite the first document with the given id. -/
def update_first (inv : Inventory) (item_id : String)
    (f : InventoryItem → InventoryItem) : Inventory :=
  match inv with
  | [] => []
  | it :: rest =>
      if it.id == item_id then f it :: rest
      else it :: update_first rest item_id f

/-- Input of `create_item` (`models/inventory.py`, `InventoryItemCreate`);
only the fields the reconciliation logic reads. -/
structure InventoryItemCreate where
  project_id : String
  item_name : String
  category : String
  unit : String
  quantity : ℚ := 0
  minimum_quantity : ℚ := 0
  unit_price : ℚ := 0
  gst_rate : ℚ := 18
  hsn_code : Option String := none
  location : Option String := none
  vendor_id : Option String := none
  notes : String := ""
deriving DecidableEq

/-- Embeds `create_item` of `controllers/inventory_controller.py`: build the
item, derive `total_value` and `status`, insert it.  The random uuid is the
parameter `newId`. -/
def create_item (inv : Inventory) (data : InventoryItemCreate)
    (newId : String) : Inventory × InventoryItem :=
  let item : InventoryItem :=
    { id := newId
      project_id := data.project_id
      item_name := data.item_name
      category := data.category
      unit := data.unit
      quantity := data.quantity
      minimum_quantity := data.minimum_quantity
      unit_price := data.unit_price
      gst_rate := some data.gst_rate
      hsn_code := data.hsn_code
      location := data.location
      vendor_id := data.vendor_id
      notes := data.notes
      total_value := data.quantity * data.unit_price
      status := _compute_status data.quantity data.minimum_quantity }
  (inv ++ [item], item)

/-- Input of `update_item` (`models/inventory.py`, `InventoryItemUpdate`);
unset fields are `none`.  Fields that never feed quantity/value/status
(category, hsn_code, ...) are represented by `item_name` alone. -/
structure InventoryItemUpdate where
  item_name : Option String := none
  quantity : Option ℚ := none
  minimum_quantity : Option ℚ := none
  unit_price : Option ℚ := none
deriving DecidableEq

/-- Errors raised (as HTTPException) by the inventory CRUD operations. -/
inductive UpdErr where
  | itemNotFound
  | belowZero
deriving DecidableEq

/-- Embeds `update_item` of `controllers/inventory_controller.py`: merge the
provided fields over the existing document, always recomputing
`total_value` and `status` from the merged quantity/minimum/price. -/
def update_item (inv : Inventory) (item_id : String)
    (data : InventoryItemUpdate) : Except UpdErr Inventory :=
  match find_one inv item_id with
  | none => .error .itemNotFound
  | some existing =>
      let new_qty := data.quantity.getD existing.quantity
      let new_min := data.minimum_quantity.getD existing.minimum_quantity
      let new_price := data.unit_price.getD existing.unit_price
      .ok (update_first inv item_id (fun it =>
        { it with
          item_name := data.item_name.getD it.item_name
          quantity := new_qty
          minimum_quantity := new_min
          unit_price := new_price
          total_value := new_qty * new_price
          status := _compute_status new_qty new_min }))

/-- Operation selector of `InventoryQuantityUpdate` (`models/inventory.py`). -/
inductive QtyOp where
  | set
  | add
  | subtract
deriving DecidableEq

/-- Input of `update_quantity` (`models/inventory.py`,
`InventoryQuantityUpdate`). -/
structure InventoryQuantityUpdate where
  quantity : ℚ
  operation : QtyOp := .set
deriving DecidableEq

/-- Embeds `update_quantity` of `controllers/inventory_controller.py`.  Only
the `subtract` branch guards against a negative result; `set` and `add`
accept any value. -/
def update_quantity (inv : Inventory) (item_id : String)
    (data : InventoryQuantityUpdate) : Except UpdErr Inventory :=
  match find_one inv item_id with
  | none => .error .itemNotFound
  | some existing =>
      match data.operation with
      | .add =>
          let new_qty := existing.quantity + data.quantity
          .ok (update_first inv item_id (fun it =>
            { it with
              quantity := new_qty
              total_value := new_qty * existing.unit_price
              status := _compute_status new_qty existing.minimum_quantity }))
      | .subtract =>
          let new_qty := existing.quantity - data.quantity
          if new_qty < 0 then .error .belowZero
          else
            .ok (update_first inv item_id (fun it =>
              { it with
                quantity := new_qty
                total_value := new_qty * existing.unit_price
                status := _compute_status new_qty existing.minimum_quantity }))
      | .set =>
          let new_qty := data.quantity
          .ok (update_first inv item_id (fun it =>
            { it with
              quantity := new_qty
              total_value := new_qty * existing.unit_price
              status := _compute_status new_qty existing.minimum_quantity }))

/-- Input of `transfer_material` (`models/inventory.py`,
`InventoryTransfer`). -/
structure InventoryTransfer where
  from_item_id : String
  to_project_id : String
  to_item_id : Option String := none
  quantity : ℚ
  notes : String := ""
deriving DecidableEq

/-- Errors raised by `transfer_material`, in the order the code checks
them; `destNotFound` is raised only after the source deduction has been
written. -/
inductive TransferErr where
  | sourceNotFound
  | invalidQuantity
  | insufficientStock (available : ℚ) (unit : String)
  | sameProject
  | destNotFound
deriving DecidableEq

/-- Result of `transfer_material`: the inventory collection as left in the
store, plus the raised error if any (an HTTPException raised after a write
does not undo the write). -/
structure TransferOutcome where
  inventory : Inventory
  error : Option TransferErr
deriving DecidableEq

/-- The `$set` payload of the source deduction of `transfer_material`:
`new_src_qty = source.quantity - quantity`, derived value and status. -/
def transferSrcUpdate (source : InventoryItem) (q : ℚ)
    (it : InventoryItem) : InventoryItem :=
  { it with
    quantity := source.quantity - q
    total_value := (source.quantity - q) * source.unit_price
    status := _compute_status (source.quantity - q) source.minimum_quantity }

/-- The `$set` payload of the destination increment of
`transfer_material`. -/
def transferDestUpdate (dest : InventoryItem) (q : ℚ)
    (it : InventoryItem) : InventoryItem :=
  { it with
    quantity := dest.quantity + q
    total_value := (dest.quantity + q) * dest.unit_price
    status := _compute_status (dest.quantity + q) dest.minimum_quantity }

/-- The new destination document created by `transfer_material` when no
destination item id is supplied. -/
def transferNewItem (source : InventoryItem) (data : InventoryTransfer)
    (newId : String) : InventoryItem :=
  { id := newId
    project_id := data.to_project_id
    item_name := source.item_name
    category := source.category
    unit := source.unit
    quantity := data.quantity
    minimum_quantity := source.minimum_quantity
    unit_price := source.unit_price
    gst_rate := some (source.gst_rate.getD 18)
    hsn_code := source.hsn_code
    location := source.location
    vendor_id := none
    notes := ("Transferred from project. " ++ data.notes).trim
    total_value := data.quantity * source.unit_price
    status := _compute_status data.quantity source.minimum_quantity }

/-- Embeds `transfer_material` of `controllers/inventory_controller.py`.
The four precondition checks run before any write; the destination-item
lookup runs after the source deduction.  The uuid of a newly created
destination item is the parameter `newId`. -/
def transfer_material (inv : Inventory) (data : InventoryTransfer)
    (newId : String) : TransferOutcome :=
  match find_one inv data.from_item_id with
  | none => ⟨inv, some .sourceNotFound⟩
  | some source =>
      if data.quantity ≤ 0 then ⟨inv, some .invalidQuantity⟩
      else if source.quantity < data.quantity then
        ⟨inv, some (.insufficientStock source.quantity source.unit)⟩
      else if source.project_id == data.to_project_id then
        ⟨inv, some .sameProject⟩
      else
        let inv1 := update_first inv data.from_item_id
          (transferSrcUpdate source data.quantity)
        match data.to_item_id with
        | some dest_id =>
            match find_one inv1 dest_id with
            | none => ⟨inv1, some .destNotFound⟩
            | some dest =>
                ⟨update_first inv1 dest.id (transferDestUpdate dest data.quantity),
                 none⟩
        | none =>
            ⟨inv1 ++ [transferNewItem source data newId], none⟩

/-! Procurement: purchase orders, GRNs, and `create_grn` with its inventory
auto-sync (`controllers/procurement_controller.py`). -/

/-- One embedded PO line item (`models/procurement.py`, `POItemCreate`):
only the fields `create_grn` reads. -/
structure POItem where
  description : String
  unit : String
  quantity : ℚ
  rate : ℚ
deriving DecidableEq

/-- A stored purchase order (`models/procurement.py`, `PurchaseOrder`):
the fields `create_grn` reads. -/
structure PurchaseOrder where
  id : String
  project_id : String
  vendor_id : String
  items : List POItem
deriving DecidableEq

/-- One GRN submission line (`models/procurement.py`, `GRNItemCreate`):
`po_item_index : int` carries no lower bound, so negative values reach the
controller. -/
structure GRNItemCreate where
  po_item_index : Int
  received_quantity : ℚ
deriving DecidableEq

/-- A GRN submission (`models/procurement.py`, `GRNCreate`). -/
structure GRNCreate where
  po_id : String
  items : List GRNItemCreate
deriving DecidableEq

/-- A stored GRN document (`models/procurement.py`, `GRN`): the fields the
matcher reads back. -/
structure GRN where
  grn_number : String
  po_id : String
  items : List GRNItemCreate
deriving DecidableEq

/-- Python list indexing `l[i]` for `int` i: non-negative indices are
positional, an index `-len ≤ i < 0` wraps to `len + i`, anything else
raises IndexError (`none`). -/
def pyIndex (n : Nat) (i : Int) : Option Nat :=
  if 0 ≤ i then (if i < (n : Int) then some i.toNat else none)
  else (if -i ≤ (n : Int) then some (n - (-i).toNat) else none)

/-- Python list access `l[i]` as an option. -/
def pyGet {α : Type} (l : List α) (i : Int) : Option α :=
  (pyIndex l.length i).bind l.get?

/-- Failure modes of `create_grn`.  `invalidIndex` is the explicit
HTTP 400 for `po_item_index >= len(po['items'])`; `pyIndexError` is the
uncaught Python IndexError for an index below `-len`.  `overReceipt`
carries the context of the error message (description, PO quantity,
already received, remaining). -/
inductive GrnErr where
  | poNotFound
  | invalidIndex (idx : Int)
  | pyIndexError (idx : Int)
  | overReceipt (description : String) (ordered already remaining : ℚ)
deriving DecidableEq

/-- Sum of `received_quantity` over one stored GRN's lines whose
`po_item_index` equals `idx` (the inner loop of the matcher). -/
def grnLineSum (g : GRN) (idx : Int) : ℚ :=
  ((g.items.filter (fun it => it.po_item_index == idx)).map
    (fun it => it.received_quantity)).sum

/-- Sum of `received_quantity` for `idx` over a list of stored GRNs (the
`total_received` double loop of `create_grn`, with `existing_grns` already
filtered to the PO). -/
def totalReceivedIn (existing_grns : List GRN) (idx : Int) : ℚ :=
  (existing_grns.map (fun g => grnLineSum g idx)).sum

/-- The validation loop of `create_grn`: for each submission line, reject an
index `≥ len` (HTTP 400), crash on an index `< -len` (uncaught IndexError),
otherwise compare `total_received + received_quantity` against the PO
line's quantity, where `total_received` sums the previously stored GRNs
only. -/
def validateItems (po : PurchaseOrder) (existing_grns : List GRN) :
    List GRNItemCreate → Option GrnErr
  | [] => none
  | gi :: rest =>
      if (po.items.length : Int) ≤ gi.po_item_index then
        some (.invalidIndex gi.po_item_index)
      else
        match pyGet po.items gi.po_item_index with
        | none => some (.pyIndexError gi.po_item_index)
        | some po_item =>
            let total_received := totalReceivedIn existing_grns gi.po_item_index
            let new_total := total_received + gi.received_quantity
            if po_item.quantity < new_total then
              some (.overReceipt po_item.description po_item.quantity
                total_received (po_item.quantity - total_received))
            else validateItems po existing_grns rest

/-- Round half to even, Python's `round`. -/
def roundHalfEven (q : ℚ) : ℤ :=
  let f := ⌊q⌋
  let r := q - (f : ℚ)
  if r < 1/2 then f
  else if 1/2 < r then f + 1
  else if f % 2 = 0 then f else f + 1

/-- Python's `round(x, 2)`. -/
def round2 (q : ℚ) : ℚ := (roundHalfEven (q * 100) : ℚ) / 100

/-- Python's falsy-`or` on the stored price: `existing.get("unit_price")
or unit_price` falls back to the PO rate exactly when the stored price is
zero. -/
def grnEffPrice (existing_price rate : ℚ) : ℚ :=
  if existing_price = 0 then rate else existing_price

/-- The `$set` payload of the existing-item branch of the GRN auto-sync:
`vendor_id or existing.get("vendor_id")` keeps the stored vendor exactly
when the PO's vendor id is the falsy empty string. -/
def grnExistingUpdate (po_vendor : String) (new_qty min_qty eff_price : ℚ)
    (it : InventoryItem) : InventoryItem :=
  { it with
    quantity := new_qty
    total_value := round2 (new_qty * eff_price)
    status := _inventory_status new_qty min_qty
    vendor_id := if po_vendor = "" then it.vendor_id else some po_vendor }

/-- The raw new document inserted by the GRN auto-sync when no existing
item matches: `status` is the literal `in_stock` and the dict carries no
`gst_rate` key. -/
def grnNewItem (po : PurchaseOrder) (po_item : POItem) (received_qty : ℚ)
    (grn_number newId : String) : InventoryItem :=
  { id := newId
    project_id := po.project_id
    item_name := po_item.description
    category := "Other"
    unit := po_item.unit
    quantity := received_qty
    minimum_quantity := 0
    unit_price := po_item.rate
    gst_rate := none
    hsn_code := none
    location := none
    vendor_id := some po.vendor_id
    notes := "Auto-created from GRN " ++ grn_number
    total_value := round2 (received_qty * po_item.rate)
    status := .in_stock }

/-- The case-insensitive same-project name match of the GRN auto-sync
(`$regex` anchored, option `i`). -/
def grnNameMatch (po : PurchaseOrder) (item_name : String)
    (it : InventoryItem) : Bool :=
  it.project_id == po.project_id &&
  it.item_name.toLower == item_name.toLower

/-- One pass of the `create_grn` auto-sync loop for one receipt line:
case-insensitive name lookup in the PO's project, then either merge into
the existing item (effective price is the existing one unless it is
falsy-zero; vendor reference from the PO unless falsy-empty) or insert a
raw new document whose `status` is the literal string `in_stock` and whose
dict omits `gst_rate`. -/
def syncLine (po : PurchaseOrder) (grn_number : String) (newId : String)
    (inv : Inventory) (gi : GRNItemCreate) : Inventory :=
  match pyGet po.items gi.po_item_index with
  | none => inv
  | some po_item =>
      match inv.find? (grnNameMatch po po_item.description) with
      | some existing =>
          update_first inv existing.id
            (grnExistingUpdate po.vendor_id
              (existing.quantity + gi.received_quantity)
              existing.minimum_quantity
              (grnEffPrice existing.unit_price po_item.rate))
      | none =>
          inv ++ [grnNewItem po po_item gi.received_quantity grn_number newId]

/-- The auto-sync loop over all lines of the accepted GRN; `newIds k` is
the uuid used if line `k` creates a new item. -/
def syncAll (po : PurchaseOrder) (grn_number : String) (newIds : Nat → String)
    (k : Nat) (inv : Inventory) : List GRNItemCreate → Inventory
  | [] => inv
  | gi :: rest =>
      syncAll po grn_number newIds (k + 1)
        (syncLine po grn_number (newIds k) inv gi) rest

/-- Left-pad a numeral to four digits, the `{:04d}` of the GRN number. -/
def pad4 (n : Nat) : String :=
  let s := toString n
  if s.length < 4 then String.mk (List.replicate (4 - s.length) '0') ++ s.data.asString
  else s

/-- Embeds `create_grn` of `controllers/procurement_controller.py`: resolve
the PO, validate every line against the PO and the previously stored GRNs,
then (only after full validation) number and insert the GRN and run the
inventory auto-sync.  `yyyymm` stands for `datetime.now().strftime` and
`newIds` for the uuids of auto-created items.  On error nothing has been
written. -/
def create_grn (pos : List PurchaseOrder) (grns : List GRN) (inv : Inventory)
    (grn_data : GRNCreate) (yyyymm : String) (newIds : Nat → String) :
    Except GrnErr (GRN × List GRN × Inventory) :=
  match pos.find? (fun p => p.id == grn_data.po_id) with
  | none => .error .poNotFound
  | some po =>
      let existing_grns := grns.filter (fun g => g.po_id == grn_data.po_id)
      match validateItems po existing_grns grn_data.items with
      | some e => .error e
      | none =>
          let count := grns.length
          let grn_number := "GRN-" ++ yyyymm ++ "-" ++ pad4 (count + 1)
          let grn : GRN := ⟨grn_number, grn_data.po_id, grn_data.items⟩
          let inv1 := syncAll po grn_number newIds 0 inv grn_data.items
          .ok (grn, grns ++ [grn], inv1)

/-! Daily Stock Ledger: `get_previous_closing_stock` and `create_dpr`
(`controllers/project_controller.py`).  DPR dates are ISO strings compared
lexicographically, as the Mongo `$lt`/sort does. -/

/-- One raw `material_stock_entries` dict of a DPR submission; an absent or
None `inventory_id` is the empty string (both are falsy in the guards). -/
structure MaterialStockEntry where
  inventory_id : String
  received : ℚ := 0
  used : ℚ := 0
deriving DecidableEq

/-- A `material_stock_entries` dict after resolution, with
`opening_stock`/`closing_stock` embedded. -/
structure ResolvedStockEntry where
  inventory_id : String
  received : ℚ
  used : ℚ
  opening_stock : ℚ
  closing_stock : ℚ
deriving DecidableEq

/-- One legacy `materials_used_entries` dict. -/
structure MaterialsUsedEntry where
  inventory_id : String
  quantity_used : ℚ := 0
deriving DecidableEq

/-- A DPR submission (`models/project.py`, `DPRCreate`): the fields the
stock logic reads. -/
structure DPRCreate where
  project_id : String
  date : String
  materials_used_entries : List MaterialsUsedEntry := []
  material_stock_entries : List MaterialStockEntry := []
deriving DecidableEq

/-- A stored DPR document: the fields `get_previous_closing_stock` reads
back. -/
structure DPR where
  project_id : String
  date : String
  material_stock_entries : List ResolvedStockEntry
deriving DecidableEq

/-- Does a stored DPR match the Mongo query of
`get_previous_closing_stock` (same project, strictly earlier date, some
entry for the item)? -/
def dprMatches (project_id inventory_id current_date : String) (d : DPR) : Bool :=
  d.project_id == project_id &&
  decide (d.date < current_date) &&
  d.material_stock_entries.any (fun e => e.inventory_id == inventory_id)

/-- The `.sort("date", -1).limit(1)` of the query: the first document of
maximal date (Mongo leaves ties unordered; we take the earliest listed). -/
def latestByDate : List DPR → Option DPR
  | [] => none
  | d :: rest =>
      match latestByDate rest with
      | none => some d
      | some m => if decide (d.date < m.date) then some m else some d

/-- Embeds `get_previous_closing_stock` of
`controllers/project_controller.py`: closing stock of the item's entry in
the latest matching prior DPR, else the item's current inventory quantity,
else 0. -/
def get_previous_closing_stock (dprs : List DPR) (inv : Inventory)
    (project_id inventory_id current_date : String) : ℚ :=
  match latestByDate (dprs.filter (dprMatches project_id inventory_id current_date)) with
  | some prev =>
      match prev.material_stock_entries.find? (fun e => e.inventory_id == inventory_id) with
      | some entry => entry.closing_stock
      | none =>
          match find_one inv inventory_id with
          | some item => item.quantity
          | none => 0
  | none =>
      match find_one inv inventory_id with
      | some item => item.quantity
      | none => 0

/-- The resolution loop of `create_dpr`: per entry, opening from
`get_previous_closing_stock`, closing clamped at zero. -/
def resolveEntries (dprs : List DPR) (inv : Inventory)
    (project_id date : String) (entries : List MaterialStockEntry) :
    List ResolvedStockEntry :=
  entries.map (fun e =>
    let opening := get_previous_closing_stock dprs inv project_id e.inventory_id date
    let closing := max 0 (opening + e.received - e.used)
    ⟨e.inventory_id, e.received, e.used, opening, closing⟩)

/-- The `$set` payload of the DPR ledger deduction: the new quantity is
`max(0, current - used)`, with derived value and status. -/
def dprDeductUpdate (item : InventoryItem) (qty_used : ℚ)
    (it : InventoryItem) : InventoryItem :=
  { it with
    quantity := max 0 (item.quantity - qty_used)
    total_value := max 0 (item.quantity - qty_used) * item.unit_price
    status := _inv_status (max 0 (item.quantity - qty_used))
      item.minimum_quantity }

/-- One guarded ledger deduction of `create_dpr` (see `deductUsed`). -/
def deductUsed (inv : Inventory) (item_id : String) (qty_used : ℚ) : Inventory :=
  if item_id ≠ "" ∧ 0 < qty_used then
    match find_one inv item_id with
    | some item => update_first inv item_id (dprDeductUpdate item qty_used)
    | none => inv
  else inv

/-- The legacy `materials_used_entries` loop of `create_dpr`: entries whose
item id was handled by the structured path are skipped. -/
def legacyLoop (new_path_ids : List String) (inv : Inventory) :
    List MaterialsUsedEntry → Inventory
  | [] => inv
  | e :: rest =>
      if new_path_ids.contains e.inventory_id then
        legacyLoop new_path_ids inv rest
      else
        legacyLoop new_path_ids (deductUsed inv e.inventory_id e.quantity_used) rest

/-- The structured `material_stock_entries` deduction loop of
`create_dpr`. -/
def newLoop (inv : Inventory) : List ResolvedStockEntry → Inventory
  | [] => inv
  | e :: rest => newLoop (deductUsed inv e.inventory_id e.used) rest

/-- The `new_path_ids` set of `create_dpr`: truthy inventory ids of the
structured entries. -/
def newPathIds (resolved : List ResolvedStockEntry) : List String :=
  (resolved.filter (fun e => e.inventory_id ≠ "")).map (fun e => e.inventory_id)

/-- Embeds `create_dpr` of `controllers/project_controller.py` (the
material-stock part; the equipment loop touches only the equipment-status
field and no quantity/value/status).  Resolution runs against the prior
DPRs, the DPR is inserted, then the legacy loop (skipping structured ids)
and the structured loop apply their ledger deductions. -/
def create_dpr (dprs : List DPR) (inv : Inventory) (d : DPRCreate) :
    DPR × List DPR × Inventory :=
  let resolved := resolveEntries dprs inv d.project_id d.date d.material_stock_entries
  let dpr : DPR := ⟨d.project_id, d.date, resolved⟩
  let new_path_ids := newPathIds resolved
  let inv1 := legacyLoop new_path_ids inv d.materials_used_entries
  let inv2 := newLoop inv1 resolved
  (dpr, dprs ++ [dpr], inv2)

/-! Observation helpers for concrete runs of `create_grn`. -/

/-- The stored GRN list after a `create_grn` call, if it succeeded. -/
def grnResultGrns (r : Except GrnErr (GRN × List GRN × Inventory)) :
    Option (List GRN) :=
  match r with
  | .ok (_, gs, _) => some gs
  | .error _ => none

/-- The inventory after a `create_grn` call, if it succeeded. -/
def grnResultInv (r : Except GrnErr (GRN × List GRN × Inventory)) :
    Option Inventory :=
  match r with
  | .ok (_, _, i) => some i
  | .error _ => none

/-- The error of a failed `create_grn` call. -/
def grnResultErr (r : Except GrnErr (GRN × List GRN × Inventory)) :
    Option GrnErr :=
  match r with
  | .ok _ => none
  | .error e => some e

/-- Decidable form of the status invariant over a whole inventory. -/
def statusOKb (inv : Inventory) : Bool :=
  inv.all (fun it => it.status == _compute_status it.quantity it.minimum_quantity)

/-- Total stock quantity over an inventory collection. -/
def totalQty (inv : Inventory) : ℚ :=
  (inv.map (fun it => it.quantity)).sum

/-- Concrete inventory document used in witnesses and counterexamples, with
derived fields consistent with its quantity and price. -/
def sampleItem (id project name : String) (q minq price : ℚ) : InventoryItem :=
  { id := id
    project_id := project
    item_name := name
    category := "Other"
    unit := "kg"
    quantity := q
    minimum_quantity := minq
    unit_price := price
    gst_rate := some 18
    hsn_code := none
    location := none
    vendor_id := none
    notes := ""
    total_value := q * price
    status := _compute_status q minq }

/-! Invariant predicates and general lemmas about the list-modelled store. -/

/-- The status invariant of the spec: every stored item's `status` field is
the classifier of its stored quantity and minimum quantity. -/
def StatusOK (inv : Inventory) : Prop :=
  ∀ it ∈ inv, it.status = _compute_status it.quantity it.minimum_quantity

/-- The non-negativity invariant of the spec. -/
def NonNeg (inv : Inventory) : Prop :=
  ∀ it ∈ inv, 0 ≤ it.quantity

/-- The conservation invariant of the spec, per PO line: the sum of the
received quantities recorded at each line index, over all stored GRNs of
the PO, does not exceed the line's ordered quantity. -/
def LineInv (grns : List GRN) (poId : String) (po_items : List POItem) : Prop :=
  ∀ (i : Nat) (po_item : POItem), po_items.get? i = some po_item →
    totalReceivedIn (grns.filter (fun g => g.po_id == poId)) (i : Int)
      ≤ po_item.quantity

/-- The received total recorded at one line index by a list of submission
lines (`grnLineSum` applied to the submission's lines). -/
def sumAt (items : List GRNItemCreate) (idx : Int) : ℚ :=
  ((items.filter (fun it => it.po_item_index == idx)).map
    (fun it => it.received_quantity)).sum

theorem _inventory_status_eq : _inventory_status = _compute_status := rfl

theorem _inv_status_eq : _inv_status = _compute_status := rfl

theorem mem_update_first {inv : Inventory} {item_id : String}
    {f : InventoryItem → InventoryItem} {x : InventoryItem}
    (hx : x ∈ update_first inv item_id f) :
    x ∈ inv ∨ ∃ y ∈ inv, x = f y := by
  induction inv with
  | nil => simpa [update_first] using hx
  | cons it rest ih =>
      by_cases h : (it.id == item_id) = true
      · simp only [update_first, h, if_pos] at hx
        rcases List.mem_cons.mp hx with h1 | h1
        · exact Or.inr ⟨it, List.mem_cons_self .., h1⟩
        · exact Or.inl (List.mem_cons_of_mem _ h1)
      · simp only [update_first, h, if_neg, Bool.false_eq_true,
          not_false_iff] at hx
        rcases List.mem_cons.mp hx with h1 | h1
        · exact Or.inl (h1 ▸ List.mem_cons_self ..)
        · rcases ih h1 with h2 | ⟨y, hy, h2⟩
          · exact Or.inl (List.mem_cons_of_mem _ h2)
          · exact Or.inr ⟨y, List.mem_cons_of_mem _ hy, h2⟩

theorem find_one_update_first_self {inv : Inventory} {item_id : String}
    {f : InventoryItem → InventoryItem} (hf : ∀ it, (f it).id = it.id) :
    find_one (update_first inv item_id f) item_id
      = (find_one inv item_id).map f := by
  induction inv with
  | nil => rfl
  | cons it rest ih =>
      by_cases h : (it.id == item_id) = true
      · have hid : (f it).id = it.id := hf it
        simp [update_first, find_one, List.find?, h, hid]
      · simp only [update_first, h, if_neg, Bool.false_eq_true, not_false_iff]
        simpa [find_one, List.find?, h] using ih

theorem find_one_update_first_ne {inv : Inventory} {item_id other : String}
    (hne : other ≠ item_id)
    {f : InventoryItem → InventoryItem} (hf : ∀ it, (f it).id = it.id) :
    find_one (update_first inv item_id f) other = find_one inv other := by
  induction inv with
  | nil => rfl
  | cons it rest ih =>
      by_cases h : (it.id == item_id) = true
      · have hid : it.id = item_id := by simpa using h
        have h2 : ((f it).id == other) = false := by
          simp only [hf it, hid]
          exact beq_eq_false_iff_ne.mpr (fun h' => hne h'.symm)
        have h3 : (it.id == other) = false := by
          simp only [hid]
          exact beq_eq_false_iff_ne.mpr (fun h' => hne h'.symm)
        simp [update_first, find_one, List.find?, h, h2, h3]
      · simp only [update_first, h, if_neg, Bool.false_eq_true, not_false_iff]
        by_cases h4 : (it.id == other) = true
        · simp [find_one, List.find?, h4]
        · simpa [find_one, List.find?, h4] using ih

theorem find_one_append {l : Inventory} {x : InventoryItem} {item_id : String} :
    find_one (l ++ [x]) item_id
      = ((find_one l item_id).or (if x.id == item_id then some x else none)) := by
  induction l with
  | nil => cases h : (x.id == item_id) <;> simp [find_one, List.find?, h]
  | cons it rest ih =>
      by_cases h : (it.id == item_id) = true
      · simp [find_one, List.find?, h]
      · simpa [find_one, List.find?, h] using ih

theorem totalQty_append (l : Inventory) (x : InventoryItem) :
    totalQty (l ++ [x]) = totalQty l + x.quantity := by
  simp [totalQty]

theorem totalQty_update_first (inv : Inventory) (item_id : String)
    (f : InventoryItem → InventoryItem) :
    totalQty (update_first inv item_id f)
      = totalQty inv +
        (match find_one inv item_id with
         | some it => (f it).quantity - it.quantity
         | none => 0) := by
  induction inv with
  | nil => simp [update_first, find_one, totalQty, List.find?]
  | cons it rest ih =>
      by_cases h : (it.id == item_id) = true
      · simp [update_first, find_one, List.find?, h, totalQty]
        ring
      · simp only [update_first, h, if_neg, Bool.false_eq_true, not_false_iff]
        simp only [totalQty, List.map_cons, List.sum_cons] at ih ⊢
        simp [find_one, List.find?, h] at ih ⊢
        rw [ih]
        cases hf : List.find? (fun it => it.id == item_id) rest <;> simp <;> ring

theorem StatusOK_update_first {inv : Inventory} {item_id : String}
    {f : InventoryItem → InventoryItem} (hinv : StatusOK inv)
    (hf : ∀ it ∈ inv,
      (f it).status = _compute_status (f it).quantity (f it).minimum_quantity) :
    StatusOK (update_first inv item_id f) := by
  intro x hx
  rcases mem_update_first hx with h | ⟨y, hy, rfl⟩
  · exact hinv x h
  · exact hf y hy

theorem StatusOK_append {l : Inventory} {x : InventoryItem}
    (hl : StatusOK l)
    (hx : x.status = _compute_status x.quantity x.minimum_quantity) :
    StatusOK (l ++ [x]) := by
  intro y hy
  rcases List.mem_append.mp hy with h | h
  · exact hl y h
  · rcases List.mem_singleton.mp h with rfl
    exact hx

theorem NonNeg_update_first {inv : Inventory} {item_id : String}
    {f : InventoryItem → InventoryItem} (hinv : NonNeg inv)
    (hf : ∀ it ∈ inv, 0 ≤ (f it).quantity) :
    NonNeg (update_first inv item_id f) := by
  intro x hx
  rcases mem_update_first hx with h | ⟨y, hy, rfl⟩
  · exact hinv x h
  · exact hf y hy

theorem NonNeg_append {l : Inventory} {x : InventoryItem}
    (hl : NonNeg l) (hx : 0 ≤ x.quantity) :
    NonNeg (l ++ [x]) := by
  intro y hy
  rcases List.mem_append.mp hy with h | h
  · exact hl y h
  · rcases List.mem_singleton.mp h with rfl
    exact hx

theorem find_one_mem {inv : Inventory} {item_id : String} {it : InventoryItem}
    (h : find_one inv item_id = some it) : it ∈ inv :=
  List.mem_of_find?_eq_some h

theorem find_one_id {inv : Inventory} {item_id : String} {it : InventoryItem}
    (h : find_one inv item_id = some it) : it.id = item_id := by
  have := List.find?_some h
  simpa using this

/-- C9: the preconditions of `transfer_material` are checked in exactly
this order with the first failure winning: source exists (not-found),
quantity > 0 (invalid-quantity), source quantity ≥ requested
(insufficient-stock, reporting the available amount and unit), source
project ≠ destination project (same-project); each failing check returns
with the inventory unchanged and masks all later checks. -/
theorem C9_transfer_precondition_order
    (inv : Inventory) (data : InventoryTransfer) (newId : String) :
    (find_one inv data.from_item_id = none →
      transfer_material inv data newId = ⟨inv, some .sourceNotFound⟩) ∧
    (∀ source, find_one inv data.from_item_id = some source →
      data.quantity ≤ 0 →
      transfer_material inv data newId = ⟨inv, some .invalidQuantity⟩) ∧
    (∀ source, find_one inv data.from_item_id = some source →
      0 < data.quantity → source.quantity < data.quantity →
      transfer_material inv data newId
        = ⟨inv, some (.insufficientStock source.quantity source.unit)⟩) ∧
    (∀ source, find_one inv data.from_item_id = some source →
      0 < data.quantity → data.quantity ≤ source.quantity →
      source.project_id = data.to_project_id →
      transfer_material inv data newId = ⟨inv, some .sameProject⟩) := by
  refine ⟨?_, ?_, ?_, ?_⟩
  · intro h
    simp [transfer_material, h]
  · intro source h hq
    simp [transfer_material, h, hq]
  · intro source h hq hlt
    simp [transfer_material, h, not_le.mpr hq, hlt]
  · intro source h hq hle hproj
    simp [transfer_material, h, not_le.mpr hq, not_lt.mpr hle, hproj]

/-- Witness for C9: a request with a nonexistent source item and a
negative quantity reports not-found, and a zero-quantity request against
an existing item whose project equals the destination project reports
invalid-quantity. -/
theorem C9_transfer_precondition_order_witness :
    transfer_material [] ⟨"A", "P1", none, -1, ""⟩ "N"
      = ⟨[], some .sourceNotFound⟩ ∧
    transfer_material [sampleItem "A" "P1" "X" 5 0 2] ⟨"A", "P1", none, 0, ""⟩ "N"
      = ⟨[sampleItem "A" "P1" "X" 5 0 2], some .invalidQuantity⟩ := by
  constructor
  · exact (C9_transfer_precondition_order [] ⟨"A", "P1", none, -1, ""⟩ "N").1 rfl
  · exact (C9_transfer_precondition_order [sampleItem "A" "P1" "X" 5 0 2]
      ⟨"A", "P1", none, 0, ""⟩ "N").2.1 (sampleItem "A" "P1" "X" 5 0 2) rfl le_rfl

theorem transferSrcUpdate_id (source : InventoryItem) (q : ℚ)
    (it : InventoryItem) : (transferSrcUpdate source q it).id = it.id := rfl

theorem transferDestUpdate_id (dest : InventoryItem) (q : ℚ)
    (it : InventoryItem) : (transferDestUpdate dest q it).id = it.id := rfl

theorem transfer_material_destSome
    {inv : Inventory} {data : InventoryTransfer} {newId : String}
    {source dest : InventoryItem} {dest_id : String}
    (hfind : find_one inv data.from_item_id = some source)
    (hq : 0 < data.quantity)
    (havail : data.quantity ≤ source.quantity)
    (hproj : source.project_id ≠ data.to_project_id)
    (hdest : data.to_item_id = some dest_id)
    (hne : dest_id ≠ data.from_item_id)
    (hfinddest : find_one inv dest_id = some dest) :
    transfer_material inv data newId =
      ⟨update_first
        (update_first inv data.from_item_id (transferSrcUpdate source data.quantity))
        dest.id (transferDestUpdate dest data.quantity),
       none⟩ := by
  have h3 : (source.project_id == data.to_project_id) = false :=
    beq_eq_false_iff_ne.mpr hproj
  simp only [transfer_material, hfind, hdest, h3, if_neg (not_le.mpr hq),
    if_neg (not_lt.mpr havail), Bool.false_eq_true, if_false]
  rw [find_one_update_first_ne hne (transferSrcUpdate_id source data.quantity),
    hfinddest]

theorem transfer_material_destMissing
    {inv : Inventory} {data : InventoryTransfer} {newId : String}
    {source : InventoryItem} {dest_id : String}
    (hfind : find_one inv data.from_item_id = some source)
    (hq : 0 < data.quantity)
    (havail : data.quantity ≤ source.quantity)
    (hproj : source.project_id ≠ data.to_project_id)
    (hdest : data.to_item_id = some dest_id)
    (hmiss : find_one inv dest_id = none) :
    transfer_material inv data newId =
      ⟨update_first inv data.from_item_id (transferSrcUpdate source data.quantity),
       some .destNotFound⟩ := by
  have hne : dest_id ≠ data.from_item_id := by
    intro h
    rw [h, hfind] at hmiss
    exact Option.noConfusion hmiss
  have h3 : (source.project_id == data.to_project_id) = false :=
    beq_eq_false_iff_ne.mpr hproj
  simp only [transfer_material, hfind, hdest, h3, if_neg (not_le.mpr hq),
    if_neg (not_lt.mpr havail), Bool.false_eq_true, if_false]
  rw [find_one_update_first_ne hne (transferSrcUpdate_id source data.quantity),
    hmiss]

theorem transfer_material_destNone
    {inv : Inventory} {data : InventoryTransfer} {newId : String}
    {source : InventoryItem}
    (hfind : find_one inv data.from_item_id = some source)
    (hq : 0 < data.quantity)
    (havail : data.quantity ≤ source.quantity)
    (hproj : source.project_id ≠ data.to_project_id)
    (hdest : data.to_item_id = none) :
    transfer_material inv data newId =
      ⟨update_first inv data.from_item_id (transferSrcUpdate source data.quantity) ++
        [transferNewItem source data newId],
       none⟩ := by
  have h3 : (source.project_id == data.to_project_id) = false :=
    beq_eq_false_iff_ne.mpr hproj
  simp only [transfer_material, hfind, hdest, h3, if_neg (not_le.mpr hq),
    if_neg (not_lt.mpr havail), Bool.false_eq_true, if_false]

theorem transfer_material_destSelf
    {inv : Inventory} {data : InventoryTransfer} {newId : String}
    {source : InventoryItem}
    (hfind : find_one inv data.from_item_id = some source)
    (hq : 0 < data.quantity)
    (havail : data.quantity ≤ source.quantity)
    (hproj : source.project_id ≠ data.to_project_id)
    (hdest : data.to_item_id = some data.from_item_id) :
    (transfer_material inv data newId).error = none := by
  have h3 : (source.project_id == data.to_project_id) = false :=
    beq_eq_false_iff_ne.mpr hproj
  simp only [transfer_material, hfind, hdest, h3, if_neg (not_le.mpr hq),
    if_neg (not_lt.mpr havail), Bool.false_eq_true, if_false]
  rw [find_one_update_first_self (transferSrcUpdate_id source data.quantity),
    hfind]
  rfl

theorem transfer_material_destSelf_eq
    {inv : Inventory} {data : InventoryTransfer} {newId : String}
    {source : InventoryItem}
    (hfind : find_one inv data.from_item_id = some source)
    (hq : 0 < data.quantity)
    (havail : data.quantity ≤ source.quantity)
    (hproj : source.project_id ≠ data.to_project_id)
    (hdest : data.to_item_id = some data.from_item_id) :
    transfer_material inv data newId =
      ⟨update_first
        (update_first inv data.from_item_id
          (transferSrcUpdate source data.quantity))
        (transferSrcUpdate source data.quantity source).id
        (transferDestUpdate (transferSrcUpdate source data.quantity source)
          data.quantity),
       none⟩ := by
  have h3 : (source.project_id == data.to_project_id) = false :=
    beq_eq_false_iff_ne.mpr hproj
  simp only [transfer_material, hfind, hdest, h3, if_neg (not_le.mpr hq),
    if_neg (not_lt.mpr havail), Bool.false_eq_true, if_false]
  rw [find_one_update_first_self (transferSrcUpdate_id source data.quantity),
    hfind]
  rfl

/-- C2 (amended): a transfer that fails one of the four precondition
checks changes no inventory item; a successful transfer of quantity Q
decreases the source by exactly Q, increases the (existing or newly
created) destination by exactly Q, and leaves the total quantity
unchanged; but a failure due to a supplied destination item id that does
not exist is raised only after the source deduction is written, so the
source is left decreased by Q. -/
theorem C2_transfer_atomicity
    (inv : Inventory) (data : InventoryTransfer) (newId : String) :
    (∀ e, (transfer_material inv data newId).error = some e →
      e ≠ .destNotFound → (transfer_material inv data newId).inventory = inv) ∧
    (∀ source dest dest_id,
      find_one inv data.from_item_id = some source →
      0 < data.quantity → data.quantity ≤ source.quantity →
      source.project_id ≠ data.to_project_id →
      data.to_item_id = some dest_id → dest_id ≠ data.from_item_id →
      find_one inv dest_id = some dest →
      (transfer_material inv data newId).error = none ∧
      (find_one (transfer_material inv data newId).inventory
          data.from_item_id).map (fun it => it.quantity)
        = some (source.quantity - data.quantity) ∧
      (find_one (transfer_material inv data newId).inventory dest_id).map
          (fun it => it.quantity)
        = some (dest.quantity + data.quantity) ∧
      totalQty (transfer_material inv data newId).inventory = totalQty inv) ∧
    (∀ source,
      find_one inv data.from_item_id = some source →
      0 < data.quantity → data.quantity ≤ source.quantity →
      source.project_id ≠ data.to_project_id →
      data.to_item_id = none →
      (transfer_material inv data newId).error = none ∧
      (find_one (transfer_material inv data newId).inventory
          data.from_item_id).map (fun it => it.quantity)
        = some (source.quantity - data.quantity) ∧
      ((transfer_material inv data newId).inventory.getLast?).map
          (fun it => (it.project_id, it.quantity))
        = some (data.to_project_id, data.quantity) ∧
      totalQty (transfer_material inv data newId).inventory = totalQty inv) ∧
    (∀ source dest_id,
      find_one inv data.from_item_id = some source →
      0 < data.quantity → data.quantity ≤ source.quantity →
      source.project_id ≠ data.to_project_id →
      data.to_item_id = some dest_id → find_one inv dest_id = none →
      (transfer_material inv data newId).error = some .destNotFound ∧
      (find_one (transfer_material inv data newId).inventory
          data.from_item_id).map (fun it => it.quantity)
        = some (source.quantity - data.quantity)) ∧
    (∀ source,
      find_one inv data.from_item_id = some source →
      0 < data.quantity → data.quantity ≤ source.quantity →
      source.project_id ≠ data.to_project_id →
      data.to_item_id = some data.from_item_id →
      (transfer_material inv data newId).error = none ∧
      (find_one (transfer_material inv data newId).inventory
          data.from_item_id).map (fun it => it.quantity)
        = some source.quantity) := by
  refine ⟨?_, ?_, ?_, ?_, ?_⟩
  · -- failures other than destNotFound leave the store unchanged
    intro e he hne
    rcases h : find_one inv data.from_item_id with _ | source
    · simp [transfer_material, h]
    · by_cases hq : data.quantity ≤ 0
      · simp [transfer_material, h, hq]
      · by_cases hlt : source.quantity < data.quantity
        · simp [transfer_material, h, hq, hlt]
        · by_cases hpe : source.project_id = data.to_project_id
          · simp [transfer_material, h, hq, hlt, hpe]
          · exfalso
            rcases hdest : data.to_item_id with _ | dest_id
            · rw [transfer_material_destNone h (not_le.mp hq) (not_lt.mp hlt)
                hpe hdest] at he
              exact Option.noConfusion he
            · by_cases hself : dest_id = data.from_item_id
              · subst hself
                rw [transfer_material_destSelf h (not_le.mp hq)
                  (not_lt.mp hlt) hpe hdest] at he
                exact Option.noConfusion he
              · rcases hfd : find_one inv dest_id with _ | dest
                · rw [transfer_material_destMissing h (not_le.mp hq)
                    (not_lt.mp hlt) hpe hdest hfd] at he
                  exact hne (Option.some.inj he).symm
                · rw [transfer_material_destSome h (not_le.mp hq)
                    (not_lt.mp hlt) hpe hdest hself hfd] at he
                  exact Option.noConfusion he
  · -- success into an existing destination item
    intro source dest dest_id hfind hq havail hproj hdest hne hfinddest
    rw [transfer_material_destSome hfind hq havail hproj hdest hne hfinddest]
    have hdid : dest.id = dest_id := find_one_id hfinddest
    have hne1 : data.from_item_id ≠ dest.id := by
      rw [hdid]; exact fun h => hne h.symm
    have hne2 : dest.id ≠ data.from_item_id := fun h => hne1 h.symm
    refine ⟨rfl, ?_, ?_, ?_⟩
    · rw [show (⟨update_first
          (update_first inv data.from_item_id (transferSrcUpdate source data.quantity))
          dest.id (transferDestUpdate dest data.quantity), none⟩ : TransferOutcome).inventory
        = update_first
          (update_first inv data.from_item_id (transferSrcUpdate source data.quantity))
          dest.id (transferDestUpdate dest data.quantity) from rfl]
      rw [find_one_update_first_ne hne1 (transferDestUpdate_id dest data.quantity),
        find_one_update_first_self (transferSrcUpdate_id source data.quantity), hfind]
      rfl
    · rw [show (⟨update_first
          (update_first inv data.from_item_id (transferSrcUpdate source data.quantity))
          dest.id (transferDestUpdate dest data.quantity), none⟩ : TransferOutcome).inventory
        = update_first
          (update_first inv data.from_item_id (transferSrcUpdate source data.quantity))
          dest.id (transferDestUpdate dest data.quantity) from rfl]
      rw [← hdid, find_one_update_first_self (transferDestUpdate_id dest data.quantity),
        find_one_update_first_ne hne2 (transferSrcUpdate_id source data.quantity),
        hdid, hfinddest]
      rfl
    · rw [show (⟨update_first
          (update_first inv data.from_item_id (transferSrcUpdate source data.quantity))
          dest.id (transferDestUpdate dest data.quantity), none⟩ : TransferOutcome).inventory
        = update_first
          (update_first inv data.from_item_id (transferSrcUpdate source data.quantity))
          dest.id (transferDestUpdate dest data.quantity) from rfl]
      rw [totalQty_update_first, totalQty_update_first,
        find_one_update_first_ne hne2 (transferSrcUpdate_id source data.quantity),
        hdid, hfinddest, hfind]
      simp only [transferSrcUpdate, transferDestUpdate]
      ring
  · -- success into a newly created destination item
    intro source hfind hq havail hproj hdest
    rw [transfer_material_destNone hfind hq havail hproj hdest]
    refine ⟨rfl, ?_, ?_, ?_⟩
    · rw [show (⟨update_first inv data.from_item_id
            (transferSrcUpdate source data.quantity) ++
            [transferNewItem source data newId], none⟩ : TransferOutcome).inventory
        = update_first inv data.from_item_id
            (transferSrcUpdate source data.quantity) ++
            [transferNewItem source data newId] from rfl]
      rw [find_one_append,
        find_one_update_first_self (transferSrcUpdate_id source data.quantity), hfind]
      rfl
    · simp [List.getLast?_concat, transferNewItem]
    · rw [show (⟨update_first inv data.from_item_id
            (transferSrcUpdate source data.quantity) ++
            [transferNewItem source data newId], none⟩ : TransferOutcome).inventory
        = update_first inv data.from_item_id
            (transferSrcUpdate source data.quantity) ++
            [transferNewItem source data newId] from rfl]
      rw [totalQty_append, totalQty_update_first, hfind]
      simp only [transferSrcUpdate, transferNewItem]
      ring
  · -- destination id supplied but missing: source already deducted
    intro source dest_id hfind hq havail hproj hdest hmiss
    rw [transfer_material_destMissing hfind hq havail hproj hdest hmiss]
    refine ⟨rfl, ?_⟩
    rw [show (⟨update_first inv data.from_item_id
          (transferSrcUpdate source data.quantity),
          some TransferErr.destNotFound⟩ : TransferOutcome).inventory
        = update_first inv data.from_item_id
          (transferSrcUpdate source data.quantity) from rfl]
    rw [find_one_update_first_self (transferSrcUpdate_id source data.quantity), hfind]
    rfl
  · -- the source's own id as destination: a successful no-op
    intro source hfind hq havail hproj hdest
    rw [transfer_material_destSelf_eq hfind hq havail hproj hdest]
    have hid : source.id = data.from_item_id := find_one_id hfind
    refine ⟨rfl, ?_⟩
    rw [show (⟨update_first
          (update_first inv data.from_item_id
            (transferSrcUpdate source data.quantity))
          (transferSrcUpdate source data.quantity source).id
          (transferDestUpdate (transferSrcUpdate source data.quantity source)
            data.quantity),
          none⟩ : TransferOutcome).inventory
        = update_first
          (update_first inv data.from_item_id
            (transferSrcUpdate source data.quantity))
          (transferSrcUpdate source data.quantity source).id
          (transferDestUpdate (transferSrcUpdate source data.quantity source)
            data.quantity) from rfl]
    rw [show (transferSrcUpdate source data.quantity source).id
        = data.from_item_id from hid]
    rw [find_one_update_first_self
      (transferDestUpdate_id (transferSrcUpdate source data.quantity source)
        data.quantity),
      find_one_update_first_self (transferSrcUpdate_id source data.quantity),
      hfind]
    show some (source.quantity - data.quantity + data.quantity)
      = some source.quantity
    exact congrArg some (by ring)

/-- Witness for C2: a concrete successful transfer of 10 from item A
(quantity 50) to existing item B (quantity 7) in another project succeeds,
moves exactly 10, and conserves the total. -/
theorem C2_transfer_atomicity_witness :
    (transfer_material
        [sampleItem "A" "P1" "X" 50 0 2, sampleItem "B" "P2" "X" 7 0 3]
        ⟨"A", "P2", some "B", 10, ""⟩ "N").error = none ∧
    (find_one (transfer_material
        [sampleItem "A" "P1" "X" 50 0 2, sampleItem "B" "P2" "X" 7 0 3]
        ⟨"A", "P2", some "B", 10, ""⟩ "N").inventory "A").map
      (fun it => it.quantity) = some (50 - 10) ∧
    (find_one (transfer_material
        [sampleItem "A" "P1" "X" 50 0 2, sampleItem "B" "P2" "X" 7 0 3]
        ⟨"A", "P2", some "B", 10, ""⟩ "N").inventory "B").map
      (fun it => it.quantity) = some (7 + 10) ∧
    totalQty (transfer_material
        [sampleItem "A" "P1" "X" 50 0 2, sampleItem "B" "P2" "X" 7 0 3]
        ⟨"A", "P2", some "B", 10, ""⟩ "N").inventory
      = totalQty [sampleItem "A" "P1" "X" 50 0 2, sampleItem "B" "P2" "X" 7 0 3] := by
  exact (C2_transfer_atomicity
      [sampleItem "A" "P1" "X" 50 0 2, sampleItem "B" "P2" "X" 7 0 3]
      ⟨"A", "P2", some "B", 10, ""⟩ "N").2.1
    (sampleItem "A" "P1" "X" 50 0 2) (sampleItem "B" "P2" "X" 7 0 3) "B"
    rfl (by norm_num) (by norm_num [sampleItem]) (by decide) rfl (by decide) rfl

/-- Counterexample to C2 as stated: a transfer whose supplied destination
item id does not exist fails with destNotFound, yet the source item has
already been decremented from 50 to 40. -/
theorem C2_transfer_counterexample :
    (transfer_material [sampleItem "A" "P1" "X" 50 0 2]
        ⟨"A", "P2", some "ZZZ", 10, ""⟩ "N").error = some .destNotFound ∧
    (find_one (transfer_material [sampleItem "A" "P1" "X" 50 0 2]
        ⟨"A", "P2", some "ZZZ", 10, ""⟩ "N").inventory "A").map
      (fun it => it.quantity) = some 40 ∧
    (40 : ℚ) ≠ 50 ∧
    (transfer_material [sampleItem "A" "P1" "X" 50 0 2]
        ⟨"A", "P2", some "A", 10, ""⟩ "N").error = none ∧
    (find_one (transfer_material [sampleItem "A" "P1" "X" 50 0 2]
        ⟨"A", "P2", some "A", 10, ""⟩ "N").inventory "A").map
      (fun it => it.quantity) = some 50 ∧
    (50 : ℚ) ≠ 50 - 10 := by
  have h := @transfer_material_destMissing
    [sampleItem "A" "P1" "X" 50 0 2] ⟨"A", "P2", some "ZZZ", 10, ""⟩ "N"
    (sampleItem "A" "P1" "X" 50 0 2) "ZZZ"
    rfl (by decide) (by decide) (by decide) rfl rfl
  refine ⟨?_, ?_, by norm_num, ?_, ?_, by norm_num⟩
  · rw [h]
  · rw [h]
    rw [show (⟨update_first [sampleItem "A" "P1" "X" 50 0 2] "A"
          (transferSrcUpdate (sampleItem "A" "P1" "X" 50 0 2) 10),
          some TransferErr.destNotFound⟩ : TransferOutcome).inventory
        = update_first [sampleItem "A" "P1" "X" 50 0 2] "A"
          (transferSrcUpdate (sampleItem "A" "P1" "X" 50 0 2) 10) from rfl]
    rw [@find_one_update_first_self [sampleItem "A" "P1" "X" 50 0 2] "A"
      (transferSrcUpdate (sampleItem "A" "P1" "X" 50 0 2) 10)
      (transferSrcUpdate_id (sampleItem "A" "P1" "X" 50 0 2) 10)]
    norm_num [find_one, List.find?, sampleItem, transferSrcUpdate]
  · rw [@transfer_material_destSelf_eq [sampleItem "A" "P1" "X" 50 0 2]
      ⟨"A", "P2", some "A", 10, ""⟩ "N" (sampleItem "A" "P1" "X" 50 0 2)
      rfl (by decide) (by decide) (by decide) rfl]
  · rw [@transfer_material_destSelf_eq [sampleItem "A" "P1" "X" 50 0 2]
      ⟨"A", "P2", some "A", 10, ""⟩ "N" (sampleItem "A" "P1" "X" 50 0 2)
      rfl (by decide) (by decide) (by decide) rfl]
    norm_num [update_first, find_one, List.find?, sampleItem,
      transferSrcUpdate, transferDestUpdate]

theorem NonNeg_transfer (inv : Inventory) (data : InventoryTransfer)
    (newId : String) (hnn : NonNeg inv) :
    NonNeg (transfer_material inv data newId).inventory := by
  rcases h : find_one inv data.from_item_id with _ | source
  · simpa [transfer_material, h] using hnn
  · by_cases hq : data.quantity ≤ 0
    · simpa [transfer_material, h, hq] using hnn
    · by_cases hlt : source.quantity < data.quantity
      · simpa [transfer_material, h, hq, hlt] using hnn
      · by_cases hpe : source.project_id = data.to_project_id
        · simpa [transfer_material, h, hq, hlt, hpe] using hnn
        · have h3 : (source.project_id == data.to_project_id) = false :=
            beq_eq_false_iff_ne.mpr hpe
          have hnn1 : NonNeg (update_first inv data.from_item_id
              (transferSrcUpdate source data.quantity)) := by
            refine NonNeg_update_first hnn (fun it hit => ?_)
            have := not_lt.mp hlt
            simp only [transferSrcUpdate]
            linarith
          rcases hdest : data.to_item_id with _ | dest_id
          · rw [transfer_material_destNone h (not_le.mp hq) (not_lt.mp hlt)
              hpe hdest]
            refine NonNeg_append hnn1 ?_
            simpa [transferNewItem] using le_of_lt (not_le.mp hq)
          · simp only [transfer_material, h, hdest, h3,
              if_neg hq, if_neg hlt, Bool.false_eq_true, if_false]
            rcases hfd : find_one (update_first inv data.from_item_id
                (transferSrcUpdate source data.quantity)) dest_id with _ | dest
            · exact hnn1
            · refine NonNeg_update_first hnn1 (fun it hit => ?_)
              have hd : 0 ≤ dest.quantity := hnn1 dest (find_one_mem hfd)
              simp only [transferDestUpdate]
              linarith [not_le.mp hq]

theorem NonNeg_deductUsed {inv : Inventory} (item_id : String) (qty_used : ℚ)
    (hnn : NonNeg inv) : NonNeg (deductUsed inv item_id qty_used) := by
  rw [deductUsed]
  split
  · rcases h : find_one inv item_id with _ | item
    · exact hnn
    · refine NonNeg_update_first hnn (fun it hit => ?_)
      simp [dprDeductUpdate]
  · exact hnn

theorem NonNeg_legacyLoop (ids : List String)
    (entries : List MaterialsUsedEntry) (inv : Inventory) (hnn : NonNeg inv) :
    NonNeg (legacyLoop ids inv entries) := by
  induction entries generalizing inv with
  | nil => exact hnn
  | cons e rest ih =>
      rw [legacyLoop]
      split
      · exact ih inv hnn
      · exact ih _ (NonNeg_deductUsed _ _ hnn)

theorem NonNeg_newLoop (entries : List ResolvedStockEntry) (inv : Inventory)
    (hnn : NonNeg inv) : NonNeg (newLoop inv entries) := by
  induction entries generalizing inv with
  | nil => exact hnn
  | cons e rest ih =>
      rw [newLoop]
      exact ih _ (NonNeg_deductUsed _ _ hnn)

theorem NonNeg_syncLine (po : PurchaseOrder) (grn_number newId : String)
    (inv : Inventory) (gi : GRNItemCreate)
    (hr : 0 ≤ gi.received_quantity) (hnn : NonNeg inv) :
    NonNeg (syncLine po grn_number newId inv gi) := by
  rw [syncLine]
  split
  · exact hnn
  · rename_i po_item _
    rcases hfd : List.find? (grnNameMatch po po_item.description) inv
        with _ | existing
    · refine NonNeg_append hnn ?_
      simpa [grnNewItem] using hr
    · refine NonNeg_update_first hnn (fun it hit => ?_)
      have he : 0 ≤ existing.quantity :=
        hnn existing (List.mem_of_find?_eq_some hfd)
      simp only [grnExistingUpdate]
      linarith

theorem NonNeg_syncAll (po : PurchaseOrder) (grn_number : String)
    (newIds : Nat → String) (k : Nat) (items : List GRNItemCreate)
    (inv : Inventory)
    (hr : ∀ gi ∈ items, 0 ≤ gi.received_quantity) (hnn : NonNeg inv) :
    NonNeg (syncAll po grn_number newIds k inv items) := by
  induction items generalizing inv k with
  | nil => exact hnn
  | cons gi rest ih =>
      rw [syncAll]
      exact ih _ _ (fun g hg => hr g (List.mem_cons_of_mem _ hg))
        (NonNeg_syncLine po grn_number (newIds k) inv gi
          (hr gi (List.mem_cons_self ..)) hnn)

/-- C4 (amended): quantities stay non-negative under every `subtract`
quantity update (a negative result is rejected), every transfer (in all
outcomes, including the post-deduction destination failure), every DPR
creation (deductions clamp at zero), and every accepted GRN whose lines
are all non-negative; but the `set` and `add` operations, item
creation/update, and GRN sync lines with negative received quantities
perform no non-negativity check and can store a negative quantity. -/
theorem C4_nonnegativity
    (inv : Inventory) (hnn : NonNeg inv) :
    (∀ item_id data inv', data.operation = QtyOp.subtract →
      update_quantity inv item_id data = .ok inv' → NonNeg inv') ∧
    (∀ data newId, NonNeg (transfer_material inv data newId).inventory) ∧
    (∀ dprs d, NonNeg (create_dpr dprs inv d).2.2) ∧
    (∀ pos grns gd yyyymm newIds res,
      (∀ gi ∈ gd.items, 0 ≤ gi.received_quantity) →
      create_grn pos grns inv gd yyyymm newIds = .ok res →
      NonNeg res.2.2) := by
  refine ⟨?_, ?_, ?_, ?_⟩
  · intro item_id data inv' hop hok
    rcases h : find_one inv item_id with _ | existing
    · simp [update_quantity, h] at hok
    · simp only [update_quantity, h, hop] at hok
      by_cases hneg : existing.quantity - data.quantity < 0
      · rw [if_pos hneg] at hok
        exact Except.noConfusion hok
      · rw [if_neg hneg] at hok
        obtain rfl := Except.ok.inj hok
        exact NonNeg_update_first hnn (fun it hit => not_lt.mp hneg)
  · intro data newId
    exact NonNeg_transfer inv data newId hnn
  · intro dprs d
    rw [create_dpr]
    exact NonNeg_newLoop _ _ (NonNeg_legacyLoop _ _ _ hnn)
  · intro pos grns gd yyyymm newIds res hr hok
    rcases hpo : List.find? (fun p => p.id == gd.po_id) pos with _ | po
    · simp [create_grn, hpo] at hok
    · simp only [create_grn, hpo] at hok
      rcases hv : validateItems po (grns.filter (fun g => g.po_id == gd.po_id))
          gd.items with _ | e
      · simp only [hv] at hok
        obtain rfl := Except.ok.inj hok
        exact NonNeg_syncAll po _ newIds 0 gd.items inv hr hnn
      · simp [hv] at hok

/-- Witness for C4: on a concrete one-item store with quantity 10, a
subtract of 4 succeeds and every stored quantity stays non-negative; a
transfer request and a DPR deduction also leave all quantities
non-negative. -/
theorem C4_nonnegativity_witness :
    (∀ inv', update_quantity [sampleItem "A" "P1" "X" 10 0 2] "A" ⟨4, .subtract⟩
        = .ok inv' → NonNeg inv') ∧
    NonNeg (transfer_material [sampleItem "A" "P1" "X" 10 0 2]
      ⟨"A", "P2", none, 3, ""⟩ "N").inventory ∧
    NonNeg (create_dpr [] [sampleItem "A" "P1" "X" 10 0 2]
      ⟨"P1", "2024-01-10", [], [⟨"A", 0, 25⟩]⟩).2.2 := by
  have h := C4_nonnegativity [sampleItem "A" "P1" "X" 10 0 2]
    (by intro it hit; rcases List.mem_singleton.mp hit with rfl; norm_num [sampleItem])
  exact ⟨fun inv' => h.1 "A" ⟨4, .subtract⟩ inv' rfl,
    h.2.1 ⟨"A", "P2", none, 3, ""⟩ "N",
    h.2.2.1 [] ⟨"P1", "2024-01-10", [], [⟨"A", 0, 25⟩]⟩⟩

/-- Counterexample to C4 as stated: the `set` operation accepts a negative
quantity without error — setting item A (quantity 10) to -5 succeeds and
stores quantity -5 < 0. -/
theorem C4_nonnegativity_counterexample :
    (update_quantity [sampleItem "A" "P1" "X" 10 0 2] "A"
        ⟨-5, .set⟩).toOption.map (fun l => l.map (fun it => it.quantity))
      = some [-5] ∧
    ¬ (0 : ℚ) ≤ -5 := by
  refine ⟨?_, by norm_num⟩
  norm_num [update_quantity, find_one, List.find?, sampleItem, update_first,
    Except.toOption]

theorem mem_update_first_found {inv : Inventory} {item_id : String}
    {f : InventoryItem → InventoryItem} {x : InventoryItem}
    (hx : x ∈ update_first inv item_id f) :
    x ∈ inv ∨ ∃ y, find_one inv item_id = some y ∧ x = f y := by
  induction inv with
  | nil => simpa [update_first] using hx
  | cons it rest ih =>
      by_cases h : (it.id == item_id) = true
      · simp only [update_first, h, if_pos] at hx
        rcases List.mem_cons.mp hx with h1 | h1
        · exact Or.inr ⟨it, by simp [find_one, List.find?, h], h1⟩
        · exact Or.inl (List.mem_cons_of_mem _ h1)
      · simp only [update_first, h, if_neg, Bool.false_eq_true,
          not_false_iff] at hx
        rcases List.mem_cons.mp hx with h1 | h1
        · exact Or.inl (h1 ▸ List.mem_cons_self ..)
        · rcases ih h1 with h2 | ⟨y, hy, h2⟩
          · exact Or.inl (List.mem_cons_of_mem _ h2)
          · refine Or.inr ⟨y, ?_, h2⟩
            simpa [find_one, List.find?, h] using hy

theorem StatusOK_update_first_found {inv : Inventory} {item_id : String}
    {f : InventoryItem → InventoryItem} (hinv : StatusOK inv)
    (hf : ∀ y, find_one inv item_id = some y →
      (f y).status = _compute_status (f y).quantity (f y).minimum_quantity) :
    StatusOK (update_first inv item_id f) := by
  intro x hx
  rcases mem_update_first_found hx with h | ⟨y, hy, rfl⟩
  · exact hinv x h
  · exact hf y hy

theorem map_id_update_first {inv : Inventory} {item_id : String}
    {f : InventoryItem → InventoryItem} (hf : ∀ it, (f it).id = it.id) :
    (update_first inv item_id f).map (fun it => it.id)
      = inv.map (fun it => it.id) := by
  induction inv with
  | nil => rfl
  | cons it rest ih =>
      by_cases h : (it.id == item_id) = true
      · simp [update_first, h, hf it]
      · simp [update_first, h, ih]

theorem find_one_self_of_nodup {inv : Inventory}
    (hnd : (inv.map (fun it => it.id)).Nodup) {x : InventoryItem}
    (hx : x ∈ inv) : find_one inv x.id = some x := by
  induction inv with
  | nil => simp at hx
  | cons it rest ih =>
      rcases List.mem_cons.mp hx with rfl | h1
      · simp [find_one, List.find?]
      · have hne : (it.id == x.id) = false := by
          refine beq_eq_false_iff_ne.mpr (fun h => ?_)
          have : x.id ∈ rest.map (fun it => it.id) :=
            List.mem_map_of_mem _ h1
          rw [← h] at this
          exact (List.nodup_cons.mp hnd).1 this
        have := ih (List.nodup_cons.mp hnd).2 h1
        simpa [find_one, List.find?, hne] using this

theorem grnExistingUpdate_id (v : String) (a b c : ℚ) (it : InventoryItem) :
    (grnExistingUpdate v a b c it).id = it.id := rfl

theorem dprDeductUpdate_id (item : InventoryItem) (q : ℚ)
    (it : InventoryItem) : (dprDeductUpdate item q it).id = it.id := rfl

theorem StatusOK_deductUsed {inv : Inventory} (item_id : String) (q : ℚ)
    (hso : StatusOK inv) : StatusOK (deductUsed inv item_id q) := by
  rw [deductUsed]
  split
  · rcases h : find_one inv item_id with _ | item
    · exact hso
    · refine StatusOK_update_first_found hso (fun y hy => ?_)
      rw [h] at hy
      obtain rfl := Option.some.inj hy
      simp [dprDeductUpdate, _inv_status_eq]
  · exact hso

theorem StatusOK_legacyLoop (ids : List String)
    (entries : List MaterialsUsedEntry) (inv : Inventory) (hso : StatusOK inv) :
    StatusOK (legacyLoop ids inv entries) := by
  induction entries generalizing inv with
  | nil => exact hso
  | cons e rest ih =>
      rw [legacyLoop]
      split
      · exact ih inv hso
      · exact ih _ (StatusOK_deductUsed _ _ hso)

theorem StatusOK_newLoop (entries : List ResolvedStockEntry) (inv : Inventory)
    (hso : StatusOK inv) : StatusOK (newLoop inv entries) := by
  induction entries generalizing inv with
  | nil => exact hso
  | cons e rest ih =>
      rw [newLoop]
      exact ih _ (StatusOK_deductUsed _ _ hso)

theorem StatusOK_transfer (inv : Inventory) (data : InventoryTransfer)
    (newId : String) (hso : StatusOK inv) :
    StatusOK (transfer_material inv data newId).inventory := by
  rcases h : find_one inv data.from_item_id with _ | source
  · simpa [transfer_material, h] using hso
  · by_cases hq : data.quantity ≤ 0
    · simpa [transfer_material, h, hq] using hso
    · by_cases hlt : source.quantity < data.quantity
      · simpa [transfer_material, h, hq, hlt] using hso
      · by_cases hpe : source.project_id = data.to_project_id
        · simpa [transfer_material, h, hq, hlt, hpe] using hso
        · have h3 : (source.project_id == data.to_project_id) = false :=
            beq_eq_false_iff_ne.mpr hpe
          have hso1 : StatusOK (update_first inv data.from_item_id
              (transferSrcUpdate source data.quantity)) := by
            refine StatusOK_update_first_found hso (fun y hy => ?_)
            rw [h] at hy
            obtain rfl := Option.some.inj hy
            simp [transferSrcUpdate]
          rcases hdest : data.to_item_id with _ | dest_id
          · rw [transfer_material_destNone h (not_le.mp hq) (not_lt.mp hlt)
              hpe hdest]
            refine StatusOK_append hso1 ?_
            simp [transferNewItem]
          · simp only [transfer_material, h, hdest, h3,
              if_neg hq, if_neg hlt, Bool.false_eq_true, if_false]
            rcases hfd : find_one (update_first inv data.from_item_id
                (transferSrcUpdate source data.quantity)) dest_id with _ | dest
            · exact hso1
            · refine StatusOK_update_first_found hso1 (fun y hy => ?_)
              rw [find_one_id hfd, hfd] at hy
              obtain rfl := Option.some.inj hy
              simp [transferDestUpdate]

theorem StatusOK_syncLine (po : PurchaseOrder) (grn_number newId : String)
    (inv : Inventory) (gi : GRNItemCreate)
    (hr : 0 < gi.received_quantity)
    (hso : StatusOK inv) (hnd : (inv.map (fun it => it.id)).Nodup) :
    StatusOK (syncLine po grn_number newId inv gi) ∧
    ((syncLine po grn_number newId inv gi).map (fun it => it.id)
        = inv.map (fun it => it.id) ∨
      (syncLine po grn_number newId inv gi).map (fun it => it.id)
        = inv.map (fun it => it.id) ++ [newId]) := by
  rw [syncLine]
  split
  · exact ⟨hso, Or.inl rfl⟩
  · rename_i po_item _
    rcases hfd : List.find? (grnNameMatch po po_item.description) inv
        with _ | existing
    · constructor
      · refine StatusOK_append hso ?_
        simp [grnNewItem, _compute_status, not_le.mpr hr,
          lt_irrefl (0 : ℚ)]
      · right
        simp [grnNewItem]
    · constructor
      · refine StatusOK_update_first_found hso (fun y hy => ?_)
        have hex : find_one inv existing.id = some existing :=
          find_one_self_of_nodup hnd (List.mem_of_find?_eq_some hfd)
        rw [hex] at hy
        obtain rfl := Option.some.inj hy
        simp [grnExistingUpdate, _inventory_status_eq]
      · exact Or.inl (map_id_update_first
          (grnExistingUpdate_id po.vendor_id _ _ _))

theorem StatusOK_syncAll (po : PurchaseOrder) (grn_number : String)
    (newIds : Nat → String) (hinj : Function.Injective newIds)
    (items : List GRNItemCreate) (k : Nat) (inv : Inventory)
    (hr : ∀ gi ∈ items, 0 < gi.received_quantity)
    (hso : StatusOK inv) (hnd : (inv.map (fun it => it.id)).Nodup)
    (hfresh : ∀ j, k ≤ j → newIds j ∉ inv.map (fun it => it.id)) :
    StatusOK (syncAll po grn_number newIds k inv items) := by
  induction items generalizing inv k with
  | nil => exact hso
  | cons gi rest ih =>
      rw [syncAll]
      have hline := StatusOK_syncLine po grn_number (newIds k) inv gi
        (hr gi (List.mem_cons_self ..)) hso hnd
      rcases hline.2 with hids | hids
      · exact ih _ _ (fun g hg => hr g (List.mem_cons_of_mem _ hg)) hline.1
          (hids ▸ hnd) (fun j hj => hids ▸ hfresh j (Nat.le_of_succ_le hj))
      · refine ih _ _ (fun g hg => hr g (List.mem_cons_of_mem _ hg)) hline.1
          ?_ ?_
        · rw [hids]
          refine List.Nodup.append hnd (List.nodup_singleton _) ?_
          intro a ha hb
          rcases List.mem_singleton.mp hb with rfl
          exact hfresh k le_rfl ha
        · intro j hj
          rw [hids]
          intro hmem
          rcases List.mem_append.mp hmem with hmem | hmem
          · exact hfresh j (Nat.le_of_succ_le hj) hmem
          · rcases List.mem_singleton.mp hmem with heq
            exact absurd (hinj heq) (Nat.ne_of_gt hj)

/-- C3 (amended): after item creation, item update, quantity update,
transfer (all outcomes) and DPR creation, every stored item's status field
equals the classifier of its stored quantity and minimum quantity; the GRN
ledger sync also preserves this — including its new-item branch — provided
every received quantity is positive (the new-item branch stores the
constant in_stock, which equals the classifier exactly when the received
quantity is positive, the minimum quantity being initialised to zero). -/
theorem C3_status_consistency :
    (∀ inv data newId, StatusOK inv →
      StatusOK (create_item inv data newId).1) ∧
    (∀ inv item_id data inv', StatusOK inv →
      update_item inv item_id data = .ok inv' → StatusOK inv') ∧
    (∀ inv item_id data inv', StatusOK inv →
      update_quantity inv item_id data = .ok inv' → StatusOK inv') ∧
    (∀ inv data newId, StatusOK inv →
      StatusOK (transfer_material inv data newId).inventory) ∧
    (∀ dprs inv d, StatusOK inv → StatusOK (create_dpr dprs inv d).2.2) ∧
    (∀ po grn_number newIds k items inv,
      Function.Injective newIds →
      (∀ gi ∈ items, 0 < gi.received_quantity) →
      StatusOK inv → (inv.map (fun it => it.id)).Nodup →
      (∀ j, k ≤ j → newIds j ∉ inv.map (fun it => it.id)) →
      StatusOK (syncAll po grn_number newIds k inv items)) := by
  refine ⟨?_, ?_, ?_, ?_, ?_, ?_⟩
  · intro inv data newId hso
    exact StatusOK_append hso rfl
  · intro inv item_id data inv' hso hok
    rcases h : find_one inv item_id with _ | existing
    · simp [update_item, h] at hok
    · simp only [update_item, h] at hok
      obtain rfl := Except.ok.inj hok
      exact StatusOK_update_first_found hso (fun y hy => rfl)
  · intro inv item_id data inv' hso hok
    rcases h : find_one inv item_id with _ | existing
    · simp [update_quantity, h] at hok
    · rcases hop : data.operation with _ | _ | _
      · simp only [update_quantity, h, hop] at hok
        obtain rfl := Except.ok.inj hok
        refine StatusOK_update_first_found hso (fun y hy => ?_)
        rw [h] at hy
        obtain rfl := Option.some.inj hy
        rfl
      · simp only [update_quantity, h, hop] at hok
        obtain rfl := Except.ok.inj hok
        refine StatusOK_update_first_found hso (fun y hy => ?_)
        rw [h] at hy
        obtain rfl := Option.some.inj hy
        rfl
      · simp only [update_quantity, h, hop] at hok
        by_cases hneg : existing.quantity - data.quantity < 0
        · rw [if_pos hneg] at hok
          exact Except.noConfusion hok
        · rw [if_neg hneg] at hok
          obtain rfl := Except.ok.inj hok
          refine StatusOK_update_first_found hso (fun y hy => ?_)
          rw [h] at hy
          obtain rfl := Option.some.inj hy
          rfl
  · exact StatusOK_transfer
  · intro dprs inv d hso
    rw [create_dpr]
    exact StatusOK_newLoop _ _ (StatusOK_legacyLoop _ _ _ hso)
  · intro po grn_number newIds k items inv hinj hr hso hnd hfresh
    exact StatusOK_syncAll po grn_number newIds hinj items k inv hr hso hnd
      hfresh

/-- Witness for C3: creating an item into an empty store preserves the
status invariant, and a concrete one-line ledger sync with received
quantity 60 preserves it on an empty store. -/
theorem C3_status_consistency_witness :
    StatusOK (create_item [] ⟨"P1", "X", "Other", "kg", 5, 10, 2, 18,
      none, none, none, ""⟩ "N").1 ∧
    StatusOK (syncAll ⟨"PO1", "P1", "V1", [⟨"Cement", "Bags", 100, 50⟩]⟩
      "GRN-1" (fun k => String.mk (List.replicate (k + 1) 'N')) 0 []
      [⟨0, 60⟩]) := by
  constructor
  · exact C3_status_consistency.1 []
      ⟨"P1", "X", "Other", "kg", 5, 10, 2, 18, none, none, none, ""⟩ "N"
      (by intro it hit; simp at hit)
  · refine C3_status_consistency.2.2.2.2.2
      ⟨"PO1", "P1", "V1", [⟨"Cement", "Bags", 100, 50⟩]⟩ "GRN-1"
      (fun k => String.mk (List.replicate (k + 1) 'N')) 0 [⟨0, 60⟩] []
      ?_ ?_ ?_ ?_ ?_
    · intro a b hab
      have := congrArg String.length hab
      simpa using this
    · intro gi hgi
      rcases List.mem_singleton.mp hgi with rfl
      norm_num
    · intro it hit
      simp at hit
    · simp
    · intro j hj
      simp

/-- Counterexample to C3 as stated: a GRN line with received quantity 0
creates a new inventory item whose stored status is the constant in_stock,
while the classifier of (quantity 0, minimum 0) is out_of_stock. -/
theorem C3_status_consistency_counterexample :
    (grnResultInv (create_grn [⟨"PO1", "P1", "V1", [⟨"Cement", "Bags", 5, 10⟩]⟩]
        [] [] ⟨"PO1", [⟨0, 0⟩]⟩ "202401" (fun _ => "N"))).map
      (fun l => l.map (fun it =>
        (it.quantity, it.status, _compute_status it.quantity it.minimum_quantity)))
      = some [(0, Status.in_stock, Status.out_of_stock)] ∧
    Status.in_stock ≠ Status.out_of_stock := by
  refine ⟨?_, by decide⟩
  norm_num [create_grn, validateItems, pyGet, pyIndex, totalReceivedIn,
    grnLineSum, grnResultInv, syncAll, syncLine, grnNameMatch, grnNewItem,
    List.find?, _compute_status]

theorem pyGet_nonneg {α : Type} (l : List α) (i : Int) (h : 0 ≤ i) :
    pyGet l i = l.get? i.toNat := by
  rw [pyGet, pyIndex, if_pos h]
  by_cases h2 : i < (l.length : Int)
  · rw [if_pos h2]
    rfl
  · rw [if_neg h2]
    symm
    refine List.get?_eq_none.mpr ?_
    exact (Int.le_toNat h).mpr (not_lt.mp h2)

theorem totalReceivedIn_append (a b : List GRN) (i : Int) :
    totalReceivedIn (a ++ b) i = totalReceivedIn a i + totalReceivedIn b i := by
  simp [totalReceivedIn]

theorem totalReceivedIn_single (g : GRN) (i : Int) :
    totalReceivedIn [g] i = grnLineSum g i := by
  simp [totalReceivedIn]

theorem sumAt_eq_zero {items : List GRNItemCreate} {idx : Int}
    (h : ∀ gi ∈ items, gi.po_item_index ≠ idx) : sumAt items idx = 0 := by
  have : items.filter (fun it => it.po_item_index == idx) = [] := by
    refine List.filter_eq_nil_iff.mpr (fun a ha => ?_)
    simpa using h a ha
  simp [sumAt, this]

theorem grnLineSum_eq_sumAt (n p : String) (items : List GRNItemCreate)
    (i : Int) : grnLineSum ⟨n, p, items⟩ i = sumAt items i := rfl

theorem validateItems_none_spec (po : PurchaseOrder) (existing : List GRN)
    (items : List GRNItemCreate)
    (hv : validateItems po existing items = none) :
    ∀ gi ∈ items, ∃ po_item,
      pyGet po.items gi.po_item_index = some po_item ∧
      gi.po_item_index < (po.items.length : Int) ∧
      totalReceivedIn existing gi.po_item_index + gi.received_quantity
        ≤ po_item.quantity := by
  induction items with
  | nil => intro gi hgi; simp at hgi
  | cons gi rest ih =>
      intro gi' hgi'
      simp only [validateItems] at hv
      by_cases h1 : (po.items.length : Int) ≤ gi.po_item_index
      · rw [if_pos h1] at hv
        exact Option.noConfusion hv
      · rw [if_neg h1] at hv
        rcases hp : pyGet po.items gi.po_item_index with _ | po_item
        · rw [hp] at hv
          exact Option.noConfusion hv
        · simp only [hp] at hv
          by_cases h2 : po_item.quantity <
              totalReceivedIn existing gi.po_item_index + gi.received_quantity
          · rw [if_pos h2] at hv
            exact Option.noConfusion hv
          · rw [if_neg h2] at hv
            rcases List.mem_cons.mp hgi' with rfl | hmem
            · exact ⟨po_item, hp, not_le.mp h1, not_lt.mp h2⟩
            · exact ih hv gi' hmem

theorem sumAt_bound (existing : List GRN) (po : PurchaseOrder)
    (items : List GRNItemCreate)
    (hdis : items.Pairwise (fun a b => a.po_item_index ≠ b.po_item_index))
    (hval : ∀ gi ∈ items, ∃ po_item,
      pyGet po.items gi.po_item_index = some po_item ∧
      gi.po_item_index < (po.items.length : Int) ∧
      totalReceivedIn existing gi.po_item_index + gi.received_quantity
        ≤ po_item.quantity)
    (i : Nat) (po_item : POItem) (hi : po.items.get? i = some po_item)
    (hbase : totalReceivedIn existing (i : Int) ≤ po_item.quantity) :
    totalReceivedIn existing (i : Int) + sumAt items (i : Int)
      ≤ po_item.quantity := by
  induction items with
  | nil => simpa [sumAt] using hbase
  | cons gi rest ih =>
      have hdis' := List.pairwise_cons.mp hdis
      by_cases hgi : gi.po_item_index = (i : Int)
      · have hz : sumAt rest (i : Int) = 0 :=
          sumAt_eq_zero (fun g hg he => (hdis'.1 g hg) (hgi.trans he.symm))
        rcases hval gi (List.mem_cons_self ..) with ⟨q, hpq, hlen, hle⟩
        rw [hgi] at hpq hle
        rw [pyGet_nonneg _ _ (Int.natCast_nonneg i)] at hpq
        rw [Int.toNat_natCast, hi] at hpq
        obtain rfl := Option.some.inj hpq
        have hsum : sumAt (gi :: rest) (i : Int)
            = gi.received_quantity + sumAt rest (i : Int) := by
          simp [sumAt, List.filter_cons, hgi]
        rw [hsum, hz]
        linarith
      · have hsum : sumAt (gi :: rest) (i : Int) = sumAt rest (i : Int) := by
          have : (gi.po_item_index == (i : Int)) = false :=
            beq_eq_false_iff_ne.mpr hgi
          simp [sumAt, List.filter_cons, this]
        rw [hsum]
        exact ih hdis'.2 (fun g hg => hval g (List.mem_cons_of_mem _ hg))

/-- C1 (amended): the over-receipt check compares each submission line
only against the total already stored in prior GRNs; therefore, for any
submission whose lines carry pairwise-distinct line indices, an accepted
GRN preserves the per-line invariant Σ received ≤ ordered, and every
accepted line individually satisfied prior-total + received ≤ ordered.
(Validation runs to completion before anything is written, so a rejected
submission — `.error` — persists no GRN and no inventory change; but a
single submission with several lines referencing the same PO line index is
checked per-line against the prior total only and can drive the stored sum
past the ordered quantity, see the counterexample.) -/
theorem C1_conservation
    (pos : List PurchaseOrder) (grns : List GRN) (inv : Inventory)
    (gd : GRNCreate) (yyyymm : String) (newIds : Nat → String)
    (res : GRN × List GRN × Inventory) (po : PurchaseOrder)
    (hpo : List.find? (fun p => p.id == gd.po_id) pos = some po)
    (hdis : gd.items.Pairwise (fun a b => a.po_item_index ≠ b.po_item_index))
    (hok : create_grn pos grns inv gd yyyymm newIds = .ok res)
    (hinv : LineInv grns gd.po_id po.items) :
    LineInv res.2.1 gd.po_id po.items ∧
    (∀ gi ∈ gd.items, ∃ po_item,
      pyGet po.items gi.po_item_index = some po_item ∧
      totalReceivedIn (grns.filter (fun g => g.po_id == gd.po_id))
        gi.po_item_index + gi.received_quantity ≤ po_item.quantity) := by
  simp only [create_grn, hpo] at hok
  rcases hv : validateItems po (grns.filter (fun g => g.po_id == gd.po_id))
      gd.items with _ | e
  · simp only [hv] at hok
    obtain rfl := Except.ok.inj hok
    have hspec := validateItems_none_spec po _ gd.items hv
    constructor
    · intro i po_item hi
      show totalReceivedIn
        (((grns ++ [(⟨_, gd.po_id, gd.items⟩ : GRN)]).filter
          (fun g => g.po_id == gd.po_id))) (i : Int) ≤ po_item.quantity
      rw [List.filter_append]
      have hkeep : List.filter (fun g => g.po_id == gd.po_id)
          [(⟨"GRN-" ++ yyyymm ++ "-" ++ pad4 (grns.length + 1), gd.po_id,
            gd.items⟩ : GRN)]
          = [⟨"GRN-" ++ yyyymm ++ "-" ++ pad4 (grns.length + 1), gd.po_id,
            gd.items⟩] := by
        simp
      rw [hkeep, totalReceivedIn_append, totalReceivedIn_single,
        grnLineSum_eq_sumAt]
      exact sumAt_bound _ po gd.items hdis hspec i po_item hi
        (hinv i po_item hi)
    · intro gi hgi
      rcases hspec gi hgi with ⟨q, hpq, _, hle⟩
      exact ⟨q, hpq, hle⟩
  · simp [hv] at hok

/-- Witness for C1: one accepted GRN of 60 against an ordered quantity of
100 (single line, distinct indices trivially) preserves the conservation
invariant of the stored GRN list. -/
theorem C1_conservation_witness :
    LineInv [⟨"GRN-" ++ "202401" ++ "-" ++ pad4 (0 + 1), "PO1", [⟨0, 60⟩]⟩]
      "PO1" [⟨"Cement", "Bags", 100, 50⟩] := by
  have hok : create_grn [⟨"PO1", "P1", "V1", [⟨"Cement", "Bags", 100, 50⟩]⟩]
      [] [] ⟨"PO1", [⟨0, 60⟩]⟩ "202401" (fun _ => "N")
      = .ok (⟨"GRN-" ++ "202401" ++ "-" ++ pad4 (0 + 1), "PO1", [⟨0, 60⟩]⟩,
          [⟨"GRN-" ++ "202401" ++ "-" ++ pad4 (0 + 1), "PO1", [⟨0, 60⟩]⟩],
          [grnNewItem ⟨"PO1", "P1", "V1", [⟨"Cement", "Bags", 100, 50⟩]⟩
            ⟨"Cement", "Bags", 100, 50⟩ 60
            ("GRN-" ++ "202401" ++ "-" ++ pad4 (0 + 1)) "N"]) := by
    norm_num [create_grn, validateItems, pyGet, pyIndex, totalReceivedIn,
      grnLineSum, syncAll, syncLine, grnNameMatch, List.find?]
  have hbase : LineInv [] "PO1" [⟨"Cement", "Bags", 100, 50⟩] := by
    intro i po_item hi
    rcases i with _ | i
    · obtain rfl := Option.some.inj hi
      simp [totalReceivedIn]
    · simp at hi
  exact (C1_conservation [⟨"PO1", "P1", "V1", [⟨"Cement", "Bags", 100, 50⟩]⟩]
    [] [] ⟨"PO1", [⟨0, 60⟩]⟩ "202401" (fun _ => "N") _
    ⟨"PO1", "P1", "V1", [⟨"Cement", "Bags", 100, 50⟩]⟩ rfl
    (by simp) hok hbase).1

/-- Counterexample to C1 as stated: against a PO line with ordered
quantity 100 and nothing yet received, a single GRN submission with two
lines of 60 each referencing line 0 is accepted, and the stored received
total for that line becomes 120 > 100. -/
theorem C1_conservation_counterexample :
    (grnResultGrns (create_grn
        [⟨"PO1", "P1", "V1", [⟨"Cement", "Bags", 100, 50⟩]⟩] [] []
        ⟨"PO1", [⟨0, 60⟩, ⟨0, 60⟩]⟩ "202401" (fun k => "N" ++ toString k))).map
      (fun gs => totalReceivedIn (gs.filter (fun g => g.po_id == "PO1")) 0)
      = some 120 ∧
    ¬ ((120 : ℚ) ≤ 100) := by
  refine ⟨?_, by norm_num⟩
  norm_num [create_grn, validateItems, pyGet, pyIndex, totalReceivedIn,
    grnLineSum, grnResultGrns]

theorem validateItems_invalidIndex_bound {po : PurchaseOrder}
    {existing : List GRN} {items : List GRNItemCreate} {j : Int}
    (hv : validateItems po existing items = some (.invalidIndex j)) :
    (po.items.length : Int) ≤ j := by
  induction items with
  | nil => simp [validateItems] at hv
  | cons gi rest ih =>
      simp only [validateItems] at hv
      by_cases h1 : (po.items.length : Int) ≤ gi.po_item_index
      · rw [if_pos h1] at hv
        obtain rfl : gi.po_item_index = j := by
          have := Option.some.inj hv
          exact GrnErr.invalidIndex.inj this
        exact h1
      · rw [if_neg h1] at hv
        rcases hp : pyGet po.items gi.po_item_index with _ | po_item
        · rw [hp] at hv
          have := Option.some.inj hv
          exact GrnErr.noConfusion this
        · simp only [hp] at hv
          by_cases h2 : po_item.quantity <
              totalReceivedIn existing gi.po_item_index + gi.received_quantity
          · rw [if_pos h2] at hv
            have := Option.some.inj hv
            exact GrnErr.noConfusion this
          · rw [if_neg h2] at hv
            exact ih hv

theorem pyGet_some_bounds {α : Type} {l : List α} {i : Int} {x : α}
    (h : pyGet l i = some x) :
    -(l.length : Int) ≤ i ∧ i < (l.length : Int) := by
  rw [pyGet, pyIndex] at h
  by_cases h0 : 0 ≤ i
  · rw [if_pos h0] at h
    by_cases h1 : i < (l.length : Int)
    · exact ⟨by linarith [Int.natCast_nonneg l.length], h1⟩
    · simp [h1] at h
  · rw [if_neg h0] at h
    by_cases h1 : -i ≤ (l.length : Int)
    · refine ⟨by linarith, by linarith [not_le.mp h0]⟩
    · simp [h1] at h

/-- C5 (amended): the index validation of `create_grn` rejects with the
invalid-reference error exactly the indices ≥ the PO's line count; a
negative index is not caught by that check: an index in `[-len, 0)` is
accepted and matched against the PO line at position `len + index`
(Python wrap-around), an index below `-len` raises an uncaught index
error, and a non-negative in-range index is matched at exactly its stated
position. -/
theorem C5_index_validation :
    (∀ (po : PurchaseOrder) (existing : List GRN) (gi : GRNItemCreate)
        (rest : List GRNItemCreate),
      (po.items.length : Int) ≤ gi.po_item_index →
      validateItems po existing (gi :: rest)
        = some (.invalidIndex gi.po_item_index)) ∧
    (∀ (po : PurchaseOrder) (existing : List GRN) (gi : GRNItemCreate)
        (rest : List GRNItemCreate),
      gi.po_item_index < -(po.items.length : Int) →
      validateItems po existing (gi :: rest)
        = some (.pyIndexError gi.po_item_index)) ∧
    (∀ (l : List POItem) (i : Int), -(l.length : Int) ≤ i → i < 0 →
      pyGet l i = l.get? ((l.length : Int) + i).toNat) ∧
    (∀ (l : List POItem) (i : Int), 0 ≤ i → pyGet l i = l.get? i.toNat) ∧
    (∀ (po : PurchaseOrder) (existing : List GRN) (gi : GRNItemCreate)
        (rest : List GRNItemCreate),
      -(po.items.length : Int) ≤ gi.po_item_index → gi.po_item_index < 0 →
      validateItems po existing (gi :: rest)
        ≠ some (.invalidIndex gi.po_item_index)) := by
  refine ⟨?_, ?_, ?_, ?_, ?_⟩
  · intro po existing gi rest h
    simp [validateItems, if_pos h]
  · intro po existing gi rest h
    have h1 : ¬ (po.items.length : Int) ≤ gi.po_item_index := by
      intro hle
      have : (0 : Int) ≤ (po.items.length : Int) := Int.natCast_nonneg _
      linarith
    have hp : pyGet po.items gi.po_item_index = none := by
      rw [pyGet, pyIndex]
      have h0 : ¬ (0 : Int) ≤ gi.po_item_index := by
        intro h0
        have : (0 : Int) ≤ (po.items.length : Int) := Int.natCast_nonneg _
        linarith
      rw [if_neg h0, if_neg (by linarith : ¬ -gi.po_item_index ≤ (po.items.length : Int))]
      rfl
    simp [validateItems, if_neg h1, hp]
  · intro l i h1 h2
    rw [pyGet, pyIndex, if_neg (not_le.mpr h2), if_pos (by linarith : -i ≤ (l.length : Int))]
    have : l.length - (-i).toNat = ((l.length : Int) + i).toNat := by
      omega
    rw [this]
    rfl
  · intro l i h
    exact pyGet_nonneg l i h
  · intro po existing gi rest h1 h2 hv
    have := validateItems_invalidIndex_bound hv
    have h3 : (0 : Int) ≤ (po.items.length : Int) := Int.natCast_nonneg _
    linarith

/-- Witness for C5: against a two-line PO, index 2 is rejected as an
invalid reference, index -5 raises the uncaught index error, and index -1
is matched against line 1 (`2 + (-1)`), not rejected. -/
theorem C5_index_validation_witness :
    validateItems ⟨"PO1", "P1", "V1", [⟨"Bricks", "Nos", 10, 1⟩, ⟨"Steel", "Kg", 20, 5⟩]⟩
      [] [⟨2, 5⟩] = some (.invalidIndex 2) ∧
    validateItems ⟨"PO1", "P1", "V1", [⟨"Bricks", "Nos", 10, 1⟩, ⟨"Steel", "Kg", 20, 5⟩]⟩
      [] [⟨-5, 5⟩] = some (.pyIndexError (-5)) ∧
    pyGet [(⟨"Bricks", "Nos", 10, 1⟩ : POItem), ⟨"Steel", "Kg", 20, 5⟩] (-1)
      = [(⟨"Bricks", "Nos", 10, 1⟩ : POItem), ⟨"Steel", "Kg", 20, 5⟩].get?
          (((2 : Nat) : Int) + (-1)).toNat ∧
    validateItems ⟨"PO1", "P1", "V1", [⟨"Bricks", "Nos", 10, 1⟩, ⟨"Steel", "Kg", 20, 5⟩]⟩
      [] [⟨-1, 15⟩] ≠ some (.invalidIndex (-1)) := by
  refine ⟨?_, ?_, ?_, ?_⟩
  · exact C5_index_validation.1 _ [] ⟨2, 5⟩ [] (by decide)
  · exact C5_index_validation.2.1 _ [] ⟨-5, 5⟩ [] (by decide)
  · exact C5_index_validation.2.2.1
      [⟨"Bricks", "Nos", 10, 1⟩, ⟨"Steel", "Kg", 20, 5⟩] (-1)
      (by decide) (by decide)
  · exact C5_index_validation.2.2.2.2 _ [] ⟨-1, 15⟩ [] (by decide) (by decide)

/-- Counterexample to C5 as stated: a GRN line with the negative index -1
is not rejected — the submission succeeds, and the line is matched against
the last PO line (description "Steel", ordered 20), creating inventory
"Steel" with quantity 15, although 15 would exceed line 0's ordered 10. -/
theorem C5_index_validation_counterexample :
    (grnResultInv (create_grn
        [⟨"PO1", "P1", "V1", [⟨"Bricks", "Nos", 10, 1⟩, ⟨"Steel", "Kg", 20, 5⟩]⟩]
        [] [] ⟨"PO1", [⟨-1, 15⟩]⟩ "202401" (fun _ => "N"))).map
      (fun l => l.map (fun it => (it.item_name, it.quantity)))
      = some [("Steel", 15)] ∧
    grnResultErr (create_grn
        [⟨"PO1", "P1", "V1", [⟨"Bricks", "Nos", 10, 1⟩, ⟨"Steel", "Kg", 20, 5⟩]⟩]
        [] [] ⟨"PO1", [⟨-1, 15⟩]⟩ "202401" (fun _ => "N")) = none := by
  constructor <;>
    norm_num [create_grn, validateItems, pyGet, pyIndex, totalReceivedIn,
      grnLineSum, grnResultInv, grnResultErr, syncAll, syncLine, grnNameMatch,
      grnNewItem, List.find?]

theorem find_one_isSome_of_mem {inv : Inventory} {x : InventoryItem}
    (hx : x ∈ inv) : ∃ y, find_one inv x.id = some y := by
  have : (inv.find? (fun it => it.id == x.id)).isSome := by
    rw [List.find?_isSome]
    exact ⟨x, hx, by simp⟩
  rcases Option.isSome_iff_exists.mp this with ⟨y, hy⟩
  exact ⟨y, hy⟩

/-- C10: GRN submission imposes no positivity check on received
quantities: a line with received quantity ≤ 0 passes validation whenever
its index is in range and the prior-total check is met; a stored negative
line strictly decreases the total that later over-receipt checks compute
for that PO line; and ledger sync adds the (possibly negative) received
amount to the matched inventory item's quantity. -/
theorem C10_no_positivity_check :
    (∀ (po : PurchaseOrder) (existing : List GRN) (gi : GRNItemCreate)
        (rest : List GRNItemCreate) (po_item : POItem),
      gi.received_quantity ≤ 0 →
      ¬ (po.items.length : Int) ≤ gi.po_item_index →
      pyGet po.items gi.po_item_index = some po_item →
      totalReceivedIn existing gi.po_item_index + gi.received_quantity
        ≤ po_item.quantity →
      validateItems po existing (gi :: rest)
        = validateItems po existing rest) ∧
    (∀ (existing : List GRN) (n p : String) (idx : Int) (r : ℚ),
      r < 0 →
      totalReceivedIn (existing ++ [⟨n, p, [⟨idx, r⟩]⟩]) idx
        < totalReceivedIn existing idx) ∧
    (∀ (po : PurchaseOrder) (grn_number newId : String) (inv : Inventory)
        (gi : GRNItemCreate) (po_item : POItem) (existing : InventoryItem),
      pyGet po.items gi.po_item_index = some po_item →
      inv.find? (grnNameMatch po po_item.description) = some existing →
      (find_one (syncLine po grn_number newId inv gi) existing.id).map
          (fun it => it.quantity)
        = some (existing.quantity + gi.received_quantity)) := by
  refine ⟨?_, ?_, ?_⟩
  · intro po existing gi rest po_item hr h1 hp hsum
    simp only [validateItems, if_neg h1, hp]
    rw [if_neg (not_lt.mpr hsum)]
  · intro existing n p idx r hr
    rw [totalReceivedIn_append, totalReceivedIn_single]
    have : grnLineSum ⟨n, p, [⟨idx, r⟩]⟩ idx = r := by
      simp [grnLineSum]
    rw [this]
    linarith
  · intro po grn_number newId inv gi po_item existing hp hfind
    rcases find_one_isSome_of_mem (List.mem_of_find?_eq_some hfind)
      with ⟨y, hy⟩
    simp only [syncLine, hp, hfind]
    rw [find_one_update_first_self (grnExistingUpdate_id po.vendor_id _ _ _),
      hy]
    rfl

/-- Witness for C10: a line of -5 against ordered 100 passes validation,
a stored GRN line of -5 drops the later-computed total below its previous
value, and ledger sync moves a matched item from quantity 10 to
10 + (-5). -/
theorem C10_no_positivity_check_witness :
    validateItems ⟨"PO1", "P1", "V1", [⟨"Cement", "Bags", 100, 50⟩]⟩ []
      [⟨0, -5⟩] = validateItems ⟨"PO1", "P1", "V1", [⟨"Cement", "Bags", 100, 50⟩]⟩ [] [] ∧
    totalReceivedIn ([] ++ [⟨"G1", "PO1", [⟨0, -5⟩]⟩]) 0
      < totalReceivedIn [] 0 ∧
    (find_one (syncLine ⟨"PO1", "P1", "V1", [⟨"Cement", "Bags", 100, 50⟩]⟩
        "G1" "N" [sampleItem "A" "P1" "Cement" 10 0 2] ⟨0, -5⟩) "A").map
      (fun it => it.quantity) = some (10 + (-5)) := by
  refine ⟨?_, ?_, ?_⟩
  · exact C10_no_positivity_check.1
      ⟨"PO1", "P1", "V1", [⟨"Cement", "Bags", 100, 50⟩]⟩ [] ⟨0, -5⟩ []
      ⟨"Cement", "Bags", 100, 50⟩ (by norm_num) (by decide) rfl
      (by norm_num [totalReceivedIn])
  · exact C10_no_positivity_check.2.1 [] "G1" "PO1" 0 (-5) (by norm_num)
  · exact C10_no_positivity_check.2.2
      ⟨"PO1", "P1", "V1", [⟨"Cement", "Bags", 100, 50⟩]⟩ "G1" "N"
      [sampleItem "A" "P1" "Cement" 10 0 2] ⟨0, -5⟩
      ⟨"Cement", "Bags", 100, 50⟩ (sampleItem "A" "P1" "Cement" 10 0 2) rfl
      (by simp [grnNameMatch, sampleItem, List.find?])

/-- C7 (amended): for an accepted receipt line, if an item of the PO's
project matches the PO line's description case-insensitively, its quantity
grows by the received amount, its total value and status are recomputed
with the existing unit price unless that price is zero (then the PO rate),
the stored unit price itself is not overwritten, and the PO's vendor
reference is recorded whenever the PO's vendor id is non-empty; if no item
matches, a new item is created with quantity = received amount, unit price
= PO rate and a note referencing the GRN number — but its status is the
constant in_stock, which coincides with a freshly computed status exactly
when the received amount is positive. -/
theorem C7_ledger_sync :
    (∀ (po : PurchaseOrder) (grn_number newId : String) (inv : Inventory)
        (gi : GRNItemCreate) (po_item : POItem) (existing : InventoryItem),
      pyGet po.items gi.po_item_index = some po_item →
      inv.find? (grnNameMatch po po_item.description) = some existing →
      find_one inv existing.id = some existing →
      (find_one (syncLine po grn_number newId inv gi) existing.id).map
          (fun it => it.quantity)
        = some (existing.quantity + gi.received_quantity) ∧
      (find_one (syncLine po grn_number newId inv gi) existing.id).map
          (fun it => it.total_value)
        = some (round2 ((existing.quantity + gi.received_quantity) *
            (if existing.unit_price = 0 then po_item.rate
             else existing.unit_price))) ∧
      (find_one (syncLine po grn_number newId inv gi) existing.id).map
          (fun it => it.status)
        = some (_compute_status (existing.quantity + gi.received_quantity)
            existing.minimum_quantity) ∧
      (find_one (syncLine po grn_number newId inv gi) existing.id).map
          (fun it => it.unit_price)
        = some existing.unit_price ∧
      (po.vendor_id ≠ "" →
        (find_one (syncLine po grn_number newId inv gi) existing.id).map
            (fun it => it.vendor_id)
          = some (some po.vendor_id))) ∧
    (∀ (po : PurchaseOrder) (grn_number newId : String) (inv : Inventory)
        (gi : GRNItemCreate) (po_item : POItem),
      pyGet po.items gi.po_item_index = some po_item →
      inv.find? (grnNameMatch po po_item.description) = none →
      syncLine po grn_number newId inv gi
        = inv ++ [grnNewItem po po_item gi.received_quantity grn_number newId] ∧
      (grnNewItem po po_item gi.received_quantity grn_number newId).quantity
        = gi.received_quantity ∧
      (grnNewItem po po_item gi.received_quantity grn_number newId).unit_price
        = po_item.rate ∧
      (grnNewItem po po_item gi.received_quantity grn_number newId).notes
        = "Auto-created from GRN " ++ grn_number ∧
      (grnNewItem po po_item gi.received_quantity grn_number newId).status
        = Status.in_stock ∧
      (0 < gi.received_quantity →
        Status.in_stock = _compute_status gi.received_quantity 0)) := by
  constructor
  · intro po grn_number newId inv gi po_item existing hp hfind hex
    have hupd : find_one (syncLine po grn_number newId inv gi) existing.id
        = some (grnExistingUpdate po.vendor_id
            (existing.quantity + gi.received_quantity)
            existing.minimum_quantity
            (grnEffPrice existing.unit_price po_item.rate) existing) := by
      simp only [syncLine, hp, hfind]
      rw [find_one_update_first_self
        (grnExistingUpdate_id po.vendor_id _ _ _), hex]
      rfl
    rw [hupd]
    refine ⟨rfl, rfl, ?_, rfl, ?_⟩
    · rw [← _inventory_status_eq]
      rfl
    · intro hv
      simp [grnExistingUpdate, hv]
  · intro po grn_number newId inv gi po_item hp hfind
    refine ⟨?_, rfl, rfl, rfl, rfl, ?_⟩
    · simp only [syncLine, hp, hfind]
    · intro hr
      simp [_compute_status, not_le.mpr hr]

/-- Witness for C7: with an existing item "Cement" (quantity 5, price 7)
in the PO's project, a receipt of 60 at rate 50 updates it to quantity
5 + 60, value round2((5+60)·7) (the nonzero stored price wins), computed
status, unchanged price, and vendor "V1"; on an empty store the same line
creates the new raw document. -/
theorem C7_ledger_sync_witness :
    (find_one (syncLine ⟨"PO1", "P1", "V1", [⟨"Cement", "Bags", 100, 50⟩]⟩
        "G1" "N" [sampleItem "A" "P1" "Cement" 5 0 7] ⟨0, 60⟩) "A").map
      (fun it => it.quantity) = some (5 + 60) ∧
    (find_one (syncLine ⟨"PO1", "P1", "V1", [⟨"Cement", "Bags", 100, 50⟩]⟩
        "G1" "N" [sampleItem "A" "P1" "Cement" 5 0 7] ⟨0, 60⟩) "A").map
      (fun it => it.total_value)
      = some (round2 ((5 + 60) * (if (7 : ℚ) = 0 then 50 else 7))) ∧
    (find_one (syncLine ⟨"PO1", "P1", "V1", [⟨"Cement", "Bags", 100, 50⟩]⟩
        "G1" "N" [sampleItem "A" "P1" "Cement" 5 0 7] ⟨0, 60⟩) "A").map
      (fun it => it.unit_price) = some 7 ∧
    (find_one (syncLine ⟨"PO1", "P1", "V1", [⟨"Cement", "Bags", 100, 50⟩]⟩
        "G1" "N" [sampleItem "A" "P1" "Cement" 5 0 7] ⟨0, 60⟩) "A").map
      (fun it => it.vendor_id) = some (some "V1") ∧
    syncLine ⟨"PO1", "P1", "V1", [⟨"Cement", "Bags", 100, 50⟩]⟩ "G1" "N" []
        ⟨0, 60⟩
      = [] ++ [grnNewItem ⟨"PO1", "P1", "V1", [⟨"Cement", "Bags", 100, 50⟩]⟩
          ⟨"Cement", "Bags", 100, 50⟩ 60 "G1" "N"] := by
  have hA := C7_ledger_sync.1 ⟨"PO1", "P1", "V1", [⟨"Cement", "Bags", 100, 50⟩]⟩
    "G1" "N" [sampleItem "A" "P1" "Cement" 5 0 7] ⟨0, 60⟩
    ⟨"Cement", "Bags", 100, 50⟩ (sampleItem "A" "P1" "Cement" 5 0 7) rfl
    (by simp [grnNameMatch, sampleItem, List.find?]) rfl
  have hB := C7_ledger_sync.2 ⟨"PO1", "P1", "V1", [⟨"Cement", "Bags", 100, 50⟩]⟩
    "G1" "N" [] ⟨0, 60⟩ ⟨"Cement", "Bags", 100, 50⟩ rfl rfl
  exact ⟨hA.1, hA.2.1, hA.2.2.2.1, hA.2.2.2.2 (by decide), hB.1⟩

/-- Counterexample to C7 as stated: a receipt line of -3 (accepted, no
positivity check) creates a new inventory item whose stored status
in_stock is not the freshly computed status, which would be
out_of_stock. -/
theorem C7_ledger_sync_counterexample :
    (grnResultInv (create_grn [⟨"PO1", "P1", "V1", [⟨"Cement", "Bags", 10, 50⟩]⟩]
        [] [] ⟨"PO1", [⟨0, -3⟩]⟩ "202401" (fun _ => "N"))).map
      (fun l => l.map (fun it =>
        (it.status, _compute_status it.quantity it.minimum_quantity)))
      = some [(Status.in_stock, Status.out_of_stock)] ∧
    Status.in_stock ≠ Status.out_of_stock := by
  refine ⟨?_, by decide⟩
  norm_num [create_grn, validateItems, pyGet, pyIndex, totalReceivedIn,
    grnLineSum, grnResultInv, syncAll, syncLine, grnNameMatch, grnNewItem,
    List.find?, _compute_status]

theorem latestByDate_ne_none (d : DPR) (rest : List DPR) :
    latestByDate (d :: rest) ≠ none := by
  rw [latestByDate]
  rcases latestByDate rest with _ | m
  · simp
  · by_cases h : d.date < m.date <;> simp [h]

theorem latestByDate_mem {l : List DPR} {x : DPR}
    (hx : latestByDate l = some x) : x ∈ l := by
  induction l with
  | nil => simp [latestByDate] at hx
  | cons d rest ih =>
      rw [latestByDate] at hx
      rcases h : latestByDate rest with _ | m
      · simp only [h] at hx
        obtain rfl := Option.some.inj hx
        exact List.mem_cons_self ..
      · simp only [h] at hx
        by_cases hd : d.date < m.date
        · rw [if_pos (decide_eq_true hd)] at hx
          obtain rfl := Option.some.inj hx
          exact List.mem_cons_of_mem _ (ih h)
        · rw [if_neg (fun hc => hd (of_decide_eq_true hc))] at hx
          obtain rfl := Option.some.inj hx
          exact List.mem_cons_self ..

theorem latestByDate_is_max {l : List DPR} :
    ∀ {x : DPR}, latestByDate l = some x → ∀ y ∈ l, y.date ≤ x.date := by
  induction l with
  | nil => intro x hx; simp [latestByDate] at hx
  | cons d rest ih =>
      intro x hx
      rw [latestByDate] at hx
      rcases h : latestByDate rest with _ | m
      · simp only [h] at hx
        obtain rfl := Option.some.inj hx
        intro y hy
        rcases List.mem_cons.mp hy with rfl | hy'
        · exact le_refl _
        · rcases rest with _ | ⟨r, rs⟩
          · simp at hy'
          · exact absurd h (latestByDate_ne_none r rs)
      · simp only [h] at hx
        by_cases hd : d.date < m.date
        · rw [if_pos (decide_eq_true hd)] at hx
          obtain rfl := Option.some.inj hx
          intro y hy
          rcases List.mem_cons.mp hy with rfl | hy'
          · exact le_of_lt hd
          · exact ih h y hy'
        · rw [if_neg (fun hc => hd (of_decide_eq_true hc))] at hx
          obtain rfl := Option.some.inj hx
          intro y hy
          rcases List.mem_cons.mp hy with rfl | hy'
          · exact le_refl _
          · exact le_trans (ih h y hy') (not_lt.mp hd)

theorem latestByDate_eq_of_strict_max {l : List DPR} {m : DPR}
    (hm : m ∈ l) (hmax : ∀ d ∈ l, d ≠ m → d.date < m.date) :
    latestByDate l = some m := by
  rcases hx : latestByDate l with _ | x
  · rcases l with _ | ⟨d, rest⟩
    · simp at hm
    · exact absurd hx (latestByDate_ne_none d rest)
  · by_cases hxm : x = m
    · rw [hxm]
    · have h1 : x.date < m.date := hmax x (latestByDate_mem hx) hxm
      have h2 : m.date ≤ x.date := latestByDate_is_max hx m hm
      exact absurd (lt_of_le_of_lt h2 h1) (lt_irrefl _)

theorem gpcs_found {dprs : List DPR} {inv : Inventory}
    {pid iid D : String} {m : DPR} {entry : ResolvedStockEntry}
    (hm : m ∈ dprs)
    (hmatch : dprMatches pid iid D m = true)
    (hmax : ∀ d ∈ dprs, dprMatches pid iid D d = true → d ≠ m →
      d.date < m.date)
    (hentry : m.material_stock_entries.find?
      (fun e => e.inventory_id == iid) = some entry) :
    get_previous_closing_stock dprs inv pid iid D = entry.closing_stock := by
  have hm' : m ∈ dprs.filter (dprMatches pid iid D) :=
    List.mem_filter.mpr ⟨hm, hmatch⟩
  have hmax' : ∀ d ∈ dprs.filter (dprMatches pid iid D), d ≠ m →
      d.date < m.date := fun d hd =>
    hmax d (List.mem_filter.mp hd).1 (List.mem_filter.mp hd).2
  rw [get_previous_closing_stock]
  simp only [latestByDate_eq_of_strict_max hm' hmax', hentry]

theorem gpcs_fallback {dprs : List DPR} {inv : Inventory}
    {pid iid D : String} {item : InventoryItem}
    (hnone : dprs.filter (dprMatches pid iid D) = [])
    (hfind : find_one inv iid = some item) :
    get_previous_closing_stock dprs inv pid iid D = item.quantity := by
  rw [get_previous_closing_stock, hnone]
  simp only [latestByDate, hfind]

theorem deductUsed_find_one_ne {inv : Inventory} {item_id other : String}
    (q : ℚ) (hne : other ≠ item_id) :
    find_one (deductUsed inv item_id q) other = find_one inv other := by
  rw [deductUsed]
  split
  · rcases h : find_one inv item_id with _ | item
    · rfl
    · exact find_one_update_first_ne hne (dprDeductUpdate_id item q)
  · rfl

theorem deductUsed_self_quantity {inv : Inventory} {item_id : String}
    {q : ℚ} {item : InventoryItem} (hne : item_id ≠ "") (hq : 0 < q)
    (hfind : find_one inv item_id = some item) :
    (find_one (deductUsed inv item_id q) item_id).map (fun it => it.quantity)
      = some (max 0 (item.quantity - q)) := by
  rw [deductUsed, if_pos ⟨hne, hq⟩]
  simp only [hfind]
  rw [find_one_update_first_self (dprDeductUpdate_id item q), hfind]
  rfl

theorem deductUsed_noop {inv : Inventory} {item_id : String} {q : ℚ}
    (hq : q ≤ 0) : deductUsed inv item_id q = inv := by
  rw [deductUsed, if_neg (fun h => absurd h.2 (not_lt.mpr hq))]

theorem legacyLoop_find_one_mem (ids : List String)
    (l : List MaterialsUsedEntry) (inv : Inventory) (i : String)
    (hi : i ∈ ids) :
    find_one (legacyLoop ids inv l) i = find_one inv i := by
  induction l generalizing inv with
  | nil => rfl
  | cons e rest ih =>
      by_cases h : ids.contains e.inventory_id = true
      · simp only [legacyLoop, h, if_true]
        exact ih inv
      · have h' : ids.contains e.inventory_id = false := by
          simpa using h
        simp only [legacyLoop, h', Bool.false_eq_true, if_false]
        rw [ih _]
        refine deductUsed_find_one_ne _ (fun hee => ?_)
        rw [hee] at hi
        have hc : ids.contains e.inventory_id = true := by simpa using hi
        rw [hc] at h'
        exact Bool.noConfusion h'

theorem newLoop_append (a b : List ResolvedStockEntry) (inv : Inventory) :
    newLoop inv (a ++ b) = newLoop (newLoop inv a) b := by
  induction a generalizing inv with
  | nil => rfl
  | cons e rest ih =>
      simp only [List.cons_append, newLoop]
      exact ih _

theorem newLoop_find_one_ne (l : List ResolvedStockEntry) (inv : Inventory)
    (i : String) (h : ∀ re ∈ l, re.inventory_id ≠ i) :
    find_one (newLoop inv l) i = find_one inv i := by
  induction l generalizing inv with
  | nil => rfl
  | cons e rest ih =>
      simp only [newLoop]
      rw [ih _ (fun re hre => h re (List.mem_cons_of_mem _ hre))]
      exact deductUsed_find_one_ne _ (h e (List.mem_cons_self ..)).symm

theorem mem_newPathIds {resolved : List ResolvedStockEntry}
    {re : ResolvedStockEntry} (hre : re ∈ resolved)
    (hne : re.inventory_id ≠ "") :
    re.inventory_id ∈ newPathIds resolved := by
  rw [newPathIds]
  exact List.mem_map.mpr
    ⟨re, List.mem_filter.mpr ⟨hre, by simpa using hne⟩, rfl⟩

theorem newLoop_split_quantity (a b : List ResolvedStockEntry)
    (re : ResolvedStockEntry) (inv : Inventory) (item : InventoryItem)
    (h1 : ∀ r ∈ a, r.inventory_id ≠ re.inventory_id)
    (h2 : ∀ r ∈ b, r.inventory_id ≠ re.inventory_id)
    (hne : re.inventory_id ≠ "") (hq : 0 < re.used)
    (hfind : find_one inv re.inventory_id = some item) :
    (find_one (newLoop inv (a ++ re :: b)) re.inventory_id).map
      (fun it => it.quantity) = some (max 0 (item.quantity - re.used)) := by
  rw [newLoop_append]
  simp only [newLoop]
  rw [newLoop_find_one_ne b _ _ h2]
  have hx : find_one (newLoop inv a) re.inventory_id = some item := by
    rw [newLoop_find_one_ne a _ _ h1]
    exact hfind
  exact deductUsed_self_quantity hne hq hx

theorem newLoop_split_noop (a b : List ResolvedStockEntry)
    (re : ResolvedStockEntry) (inv : Inventory)
    (h1 : ∀ r ∈ a, r.inventory_id ≠ re.inventory_id)
    (h2 : ∀ r ∈ b, r.inventory_id ≠ re.inventory_id)
    (hq : re.used ≤ 0) :
    find_one (newLoop inv (a ++ re :: b)) re.inventory_id
      = find_one inv re.inventory_id := by
  rw [newLoop_append]
  simp only [newLoop]
  rw [newLoop_find_one_ne b _ _ h2, deductUsed_noop hq,
    newLoop_find_one_ne a _ _ h1]

/-- C6 (amended): for every DPR and every one of its material stock
entries, the resolved opening stock is `get_previous_closing_stock` (the
closing stock of the item's entry in the strictly latest prior matching
DPR of the project, else the item's current inventory quantity) and the
resolved closing stock is max(0, opening + received - used); after
creation, for an entry whose item id appears in no other structured entry
of the same DPR, the item's ledger quantity is max(0, previous - used)
when used > 0 — regardless of any legacy entries for that item, which are
skipped — while an entry with used ≤ 0 leaves the item untouched (the
deduction is guarded by `used > 0`, so the claimed formula fails for
negative used; and an item id repeated across structured entries is
deducted once per entry, so the per-entry formula fails there too — see
the counterexample). -/
theorem C6_daily_stock :
    (∀ (dprs : List DPR) (inv : Inventory) (d : DPRCreate),
      (create_dpr dprs inv d).1.material_stock_entries
        = d.material_stock_entries.map (fun e =>
            ⟨e.inventory_id, e.received, e.used,
             get_previous_closing_stock dprs inv d.project_id e.inventory_id
               d.date,
             max 0 (get_previous_closing_stock dprs inv d.project_id
               e.inventory_id d.date + e.received - e.used)⟩)) ∧
    (∀ (dprs : List DPR) (inv : Inventory) (pid iid D : String) (m : DPR)
        (entry : ResolvedStockEntry),
      m ∈ dprs → dprMatches pid iid D m = true →
      (∀ d' ∈ dprs, dprMatches pid iid D d' = true → d' ≠ m →
        d'.date < m.date) →
      m.material_stock_entries.find?
        (fun en => en.inventory_id == iid) = some entry →
      get_previous_closing_stock dprs inv pid iid D = entry.closing_stock) ∧
    (∀ (dprs : List DPR) (inv : Inventory) (pid iid D : String)
        (item : InventoryItem),
      dprs.filter (dprMatches pid iid D) = [] →
      find_one inv iid = some item →
      get_previous_closing_stock dprs inv pid iid D = item.quantity) ∧
    (∀ (dprs : List DPR) (inv : Inventory) (d : DPRCreate)
        (l1 l2 : List MaterialStockEntry) (e : MaterialStockEntry)
        (item : InventoryItem),
      d.material_stock_entries = l1 ++ e :: l2 →
      (∀ e' ∈ l1, e'.inventory_id ≠ e.inventory_id) →
      (∀ e' ∈ l2, e'.inventory_id ≠ e.inventory_id) →
      e.inventory_id ≠ "" →
      find_one inv e.inventory_id = some item →
      0 < e.used →
      (find_one (create_dpr dprs inv d).2.2 e.inventory_id).map
        (fun it => it.quantity) = some (max 0 (item.quantity - e.used))) ∧
    (∀ (dprs : List DPR) (inv : Inventory) (d : DPRCreate)
        (l1 l2 : List MaterialStockEntry) (e : MaterialStockEntry),
      d.material_stock_entries = l1 ++ e :: l2 →
      (∀ e' ∈ l1, e'.inventory_id ≠ e.inventory_id) →
      (∀ e' ∈ l2, e'.inventory_id ≠ e.inventory_id) →
      e.inventory_id ≠ "" →
      e.used ≤ 0 →
      find_one (create_dpr dprs inv d).2.2 e.inventory_id
        = find_one inv e.inventory_id) := by
  refine ⟨?_, ?_, ?_, ?_, ?_⟩
  · intro dprs inv d
    rfl
  · intro dprs inv pid iid D m entry hm hmatch hmax hentry
    exact gpcs_found hm hmatch hmax hentry
  · intro dprs inv pid iid D item hnone hfind
    exact gpcs_fallback hnone hfind
  · intro dprs inv d l1 l2 e item hsplit h1 h2 hne hfind hused
    simp only [create_dpr]
    have hres : resolveEntries dprs inv d.project_id d.date
        d.material_stock_entries
        = resolveEntries dprs inv d.project_id d.date l1
          ++ (⟨e.inventory_id, e.received, e.used,
              get_previous_closing_stock dprs inv d.project_id e.inventory_id
                d.date,
              max 0 (get_previous_closing_stock dprs inv d.project_id
                e.inventory_id d.date + e.received - e.used)⟩ : ResolvedStockEntry)
            :: resolveEntries dprs inv d.project_id d.date l2 := by
      rw [hsplit]
      simp [resolveEntries]
    rw [hres]
    have h1' : ∀ r ∈ resolveEntries dprs inv d.project_id d.date l1,
        r.inventory_id ≠ e.inventory_id := by
      intro r hr
      simp only [resolveEntries] at hr
      rcases List.mem_map.mp hr with ⟨e', he', rfl⟩
      exact h1 e' he'
    have h2' : ∀ r ∈ resolveEntries dprs inv d.project_id d.date l2,
        r.inventory_id ≠ e.inventory_id := by
      intro r hr
      simp only [resolveEntries] at hr
      rcases List.mem_map.mp hr with ⟨e', he', rfl⟩
      exact h2 e' he'
    have hmem : e.inventory_id ∈ newPathIds
        (resolveEntries dprs inv d.project_id d.date l1
          ++ (⟨e.inventory_id, e.received, e.used,
              get_previous_closing_stock dprs inv d.project_id e.inventory_id
                d.date,
              max 0 (get_previous_closing_stock dprs inv d.project_id
                e.inventory_id d.date + e.received - e.used)⟩ : ResolvedStockEntry)
            :: resolveEntries dprs inv d.project_id d.date l2) :=
      mem_newPathIds
        (List.mem_append.mpr (Or.inr (List.mem_cons_self ..))) hne
    have hfind1 : find_one
        (legacyLoop (newPathIds
          (resolveEntries dprs inv d.project_id d.date l1
            ++ (⟨e.inventory_id, e.received, e.used,
                get_previous_closing_stock dprs inv d.project_id e.inventory_id
                  d.date,
                max 0 (get_previous_closing_stock dprs inv d.project_id
                  e.inventory_id d.date + e.received - e.used)⟩ : ResolvedStockEntry)
              :: resolveEntries dprs inv d.project_id d.date l2))
          inv d.materials_used_entries) e.inventory_id = some item := by
      rw [legacyLoop_find_one_mem _ _ _ _ hmem]
      exact hfind
    exact newLoop_split_quantity _ _ _ _ item h1' h2' hne hused hfind1
  · intro dprs inv d l1 l2 e hsplit h1 h2 hne hused
    simp only [create_dpr]
    have hres : resolveEntries dprs inv d.project_id d.date
        d.material_stock_entries
        = resolveEntries dprs inv d.project_id d.date l1
          ++ (⟨e.inventory_id, e.received, e.used,
              get_previous_closing_stock dprs inv d.project_id e.inventory_id
                d.date,
              max 0 (get_previous_closing_stock dprs inv d.project_id
                e.inventory_id d.date + e.received - e.used)⟩ : ResolvedStockEntry)
            :: resolveEntries dprs inv d.project_id d.date l2 := by
      rw [hsplit]
      simp [resolveEntries]
    rw [hres]
    have h1' : ∀ r ∈ resolveEntries dprs inv d.project_id d.date l1,
        r.inventory_id ≠ e.inventory_id := by
      intro r hr
      simp only [resolveEntries] at hr
      rcases List.mem_map.mp hr with ⟨e', he', rfl⟩
      exact h1 e' he'
    have h2' : ∀ r ∈ resolveEntries dprs inv d.project_id d.date l2,
        r.inventory_id ≠ e.inventory_id := by
      intro r hr
      simp only [resolveEntries] at hr
      rcases List.mem_map.mp hr with ⟨e', he', rfl⟩
      exact h2 e' he'
    have hmem : e.inventory_id ∈ newPathIds
        (resolveEntries dprs inv d.project_id d.date l1
          ++ (⟨e.inventory_id, e.received, e.used,
              get_previous_closing_stock dprs inv d.project_id e.inventory_id
                d.date,
              max 0 (get_previous_closing_stock dprs inv d.project_id
                e.inventory_id d.date + e.received - e.used)⟩ : ResolvedStockEntry)
            :: resolveEntries dprs inv d.project_id d.date l2) :=
      mem_newPathIds
        (List.mem_append.mpr (Or.inr (List.mem_cons_self ..))) hne
    rw [newLoop_split_noop _ _ _ _ h1' h2' hused,
      legacyLoop_find_one_mem _ _ _ _ hmem]

/-- Witness for C6 (the spec's own day-two scenario): with a prior DPR of
2024-01-10 closing at 220 for item Y and current inventory 170, a DPR of
2024-01-11 with used 300 resolves opening 220, and the inventory drops to
max(0, 170 - 300). -/
theorem C6_daily_stock_witness :
    get_previous_closing_stock [⟨"P1", "2024-01-10", [⟨"Y", 50, 30, 200, 220⟩]⟩]
      [sampleItem "Y" "P1" "Cement" 170 0 2] "P1" "Y" "2024-01-11" = 220 ∧
    (find_one (create_dpr [⟨"P1", "2024-01-10", [⟨"Y", 50, 30, 200, 220⟩]⟩]
        [sampleItem "Y" "P1" "Cement" 170 0 2]
        ⟨"P1", "2024-01-11", [], [⟨"Y", 0, 300⟩]⟩).2.2 "Y").map
      (fun it => it.quantity) = some (max 0 (170 - 300)) := by
  constructor
  · have hmatch : dprMatches "P1" "Y" "2024-01-11"
        ⟨"P1", "2024-01-10", [⟨"Y", 50, 30, 200, 220⟩]⟩ = true := by
      simp only [dprMatches, String.lt_iff_toList_lt]
      decide
    exact C6_daily_stock.2.1 [⟨"P1", "2024-01-10", [⟨"Y", 50, 30, 200, 220⟩]⟩]
      [sampleItem "Y" "P1" "Cement" 170 0 2] "P1" "Y" "2024-01-11"
      ⟨"P1", "2024-01-10", [⟨"Y", 50, 30, 200, 220⟩]⟩ ⟨"Y", 50, 30, 200, 220⟩
      (List.mem_singleton.mpr rfl) hmatch
      (fun d' hd' _ hne => absurd (List.mem_singleton.mp hd') hne) rfl
  · exact C6_daily_stock.2.2.2.1
      [⟨"P1", "2024-01-10", [⟨"Y", 50, 30, 200, 220⟩]⟩]
      [sampleItem "Y" "P1" "Cement" 170 0 2]
      ⟨"P1", "2024-01-11", [], [⟨"Y", 0, 300⟩]⟩ [] [] ⟨"Y", 0, 300⟩
      (sampleItem "Y" "P1" "Cement" 170 0 2) rfl
      (fun e' he' => absurd he' (List.not_mem_nil e'))
      (fun e' he' => absurd he' (List.not_mem_nil e'))
      (by decide) rfl (by norm_num)

/-- Counterexample to C6 as stated: a stock entry with used = -10 against
an item holding 5 leaves the ledger at 5 (the deduction is guarded by
used > 0), while the claimed formula max(0, 5 - (-10)) gives 15; and a
DPR listing the same item twice (used 3 and used 4, starting from 10)
leaves the ledger at 3, while the claimed per-entry formula for the second
entry gives max(0, 10 - 4) = 6. -/
theorem C6_daily_stock_counterexample :
    (find_one (create_dpr [] [sampleItem "X" "P1" "Cement" 5 0 2]
        ⟨"P1", "2024-01-10", [], [⟨"X", 0, -10⟩]⟩).2.2 "X").map
      (fun it => it.quantity) = some 5 ∧
    max 0 ((5 : ℚ) - (-10)) = 15 ∧ (5 : ℚ) ≠ 15 ∧
    (find_one (create_dpr [] [sampleItem "X" "P1" "Cement" 10 0 2]
        ⟨"P1", "2024-01-10", [], [⟨"X", 0, 3⟩, ⟨"X", 0, 4⟩]⟩).2.2 "X").map
      (fun it => it.quantity) = some 3 ∧
    max 0 ((10 : ℚ) - 4) = 6 ∧ (3 : ℚ) ≠ 6 := by
  refine ⟨?_, by norm_num, by norm_num, ?_, ?_, by norm_num⟩
  · norm_num [create_dpr, resolveEntries, legacyLoop, newLoop, deductUsed,
      find_one, List.find?, sampleItem, newPathIds]
  · norm_num [create_dpr, resolveEntries, legacyLoop, newLoop, deductUsed,
      find_one, List.find?, sampleItem, newPathIds, update_first,
      dprDeductUpdate, _inv_status, max_def]
  · norm_num [max_def]

theorem legacyLoop_filter (ids : List String) (l : List MaterialsUsedEntry)
    (inv : Inventory) :
    legacyLoop ids inv (l.filter (fun e => !ids.contains e.inventory_id))
      = legacyLoop ids inv l := by
  induction l generalizing inv with
  | nil => rfl
  | cons e rest ih =>
      by_cases h : ids.contains e.inventory_id
      · simp only [List.filter_cons, h, Bool.not_true, Bool.false_eq_true,
          if_false, legacyLoop, if_true]
        exact ih inv
      · have h' : ids.contains e.inventory_id = false := by
          simpa using h
        simp only [List.filter_cons, h', Bool.not_false, if_true, legacyLoop,
          Bool.false_eq_true, if_false]
        exact ih _

/-- C8: the legacy materials-used deduction is skipped for every item id
that also appears in the structured material-stock entries: the final
inventory of `create_dpr` is unchanged if those legacy entries are removed
altogether, so exactly the structured path's deduction applies to such an
item. -/
theorem C8_no_double_deduction (dprs : List DPR) (inv : Inventory)
    (d : DPRCreate) :
    (create_dpr dprs inv d).2.2
      = (create_dpr dprs inv
          { d with materials_used_entries :=
              d.materials_used_entries.filter (fun e =>
                !(newPathIds (resolveEntries dprs inv d.project_id d.date
                    d.material_stock_entries)).contains e.inventory_id) }).2.2 := by
  simp only [create_dpr]
  rw [legacyLoop_filter]

end CivilERP
